import Mathlib

/-!
Verification of the FTS AI command protocol and financial-state
reconciliation engine.

The TypeScript sources are shallowly embedded:
* money values are exact rationals (the code routes every money operation
  through decimal.js, an exact decimal library; the final `toNumber()`
  conversion is lossless for the 2-decimal-place currency values the store
  keeps, so `ℚ` is the faithful carrier);
* text is `List Char` (`Str`), so that string scanning and hashing can be
  reasoned about by structural induction;
* the browser key-value store (`localStorage`) is modelled twice: as a raw
  list of string keys for the erase-scoping claims, and as a typed record
  for the ledger claims (the `JSON.stringify`/`JSON.parse` persistence
  round-trip on well-formed values is modelled as the identity);
* platform primitives that are not repository code (`crypto.randomUUID()`,
  timestamps, the wall clock behind date validation) are passed in as
  explicit arguments.
-/

/-- Text, as a list of characters. -/
abbrev Str := List Char

/-- Opening brace character (0x7b). -/
def obr : Char := Char.ofNat 123

/-- Closing brace character (0x7d). -/
def cbr : Char := Char.ofNat 125

/-- Whitespace class used by JavaScript string trimming and the regex
class backslash-s (space, tab, line feed, carriage return). -/
def isWs (c : Char) : Bool :=
  c = ' ' || c = Char.ofNat 9 || c = Char.ofNat 10 || c = Char.ofNat 13

/-- JavaScript String.prototype.trim: drop whitespace from both ends. -/
def jsTrim (s : Str) : Str :=
  ((s.dropWhile isWs).reverse.dropWhile isWs).reverse

namespace FinancialMath

/-- FinancialMath.add from decimal-math.ts: exact decimal addition. -/
def add (a b : ℚ) : ℚ := a + b

/-- FinancialMath.subtract from decimal-math.ts: exact decimal subtraction. -/
def subtract (a b : ℚ) : ℚ := a - b

/-- FinancialMath.multiply from decimal-math.ts. -/
def multiply (a b : ℚ) : ℚ := a * b

/-- FinancialMath.sum from decimal-math.ts: reduce with exact addition
starting from 0. -/
def sum (amounts : List ℚ) : ℚ := amounts.foldl (fun acc a => acc + a) 0

/-- FinancialMath.round from decimal-math.ts: Decimal.toDecimalPlaces(2)
under the configured ROUND_HALF_UP mode (ties round away from zero). -/
def round (x : ℚ) : ℚ :=
  if 0 ≤ x then ((⌊x * 100 + 1/2⌋ : ℤ) : ℚ) / 100
  else -(((⌊-x * 100 + 1/2⌋ : ℤ) : ℚ) / 100)

/-- FinancialMath.isValidAmount from decimal-math.ts: finite and at least
zero (rationals are always finite). -/
def isValidAmount (x : ℚ) : Bool := decide (0 ≤ x)

/-- A value with at most two decimal places. -/
def Is2dp (x : ℚ) : Prop := ∃ k : ℤ, x = (k : ℚ) / 100

theorem round_is2dp (x : ℚ) : Is2dp (round x) := by
  unfold round
  split
  · exact ⟨_, rfl⟩
  · exact ⟨-⌊-x * 100 + 1/2⌋, by push_cast; ring⟩

theorem round_intCast_div (k : ℤ) : round ((k : ℚ) / 100) = (k : ℚ) / 100 := by
  unfold round
  have h100 : (100 : ℚ) ≠ 0 := by norm_num
  have hdm : ((k : ℚ) / 100) * 100 = (k : ℚ) := by field_simp
  rcases le_or_lt 0 (k : ℚ) with hk | hk
  · have hx : 0 ≤ (k : ℚ) / 100 := by positivity
    rw [if_pos hx, hdm]
    have : ⌊(k : ℚ) + 1/2⌋ = k := by
      rw [add_comm, Int.floor_add_int]
      norm_num
    rw [this]
  · have hx : ¬ (0 ≤ (k : ℚ) / 100) := by
      push_neg
      exact div_neg_of_neg_of_pos hk (by norm_num)
    rw [if_neg hx]
    have hdm' : -((k : ℚ) / 100) * 100 = ((-k : ℤ) : ℚ) := by push_cast; field_simp
    rw [hdm']
    have : ⌊((-k : ℤ) : ℚ) + 1/2⌋ = -k := by
      rw [add_comm, Int.floor_add_int]
      norm_num
    rw [this]
    push_cast
    ring

theorem round_of_is2dp {x : ℚ} (h : Is2dp x) : round x = x := by
  obtain ⟨k, rfl⟩ := h
  exact round_intCast_div k

/-- Rounding is idempotent. -/
theorem round_round (x : ℚ) : round (round x) = round x :=
  round_of_is2dp (round_is2dp x)

theorem is2dp_add {a b : ℚ} (ha : Is2dp a) (hb : Is2dp b) : Is2dp (a + b) := by
  obtain ⟨j, rfl⟩ := ha
  obtain ⟨k, rfl⟩ := hb
  exact ⟨j + k, by push_cast; ring⟩

theorem is2dp_zero : Is2dp 0 := ⟨0, by norm_num⟩

theorem sum_cons (a : ℚ) (l : List ℚ) : sum (a :: l) = a + sum l := by
  show (a :: l).foldl (fun acc x => acc + x) 0 = a + l.foldl (fun acc x => acc + x) 0
  rw [List.foldl_cons]
  have h : ∀ (l : List ℚ) (c d : ℚ),
      l.foldl (fun acc x => acc + x) (c + d) = c + l.foldl (fun acc x => acc + x) d := by
    intro l
    induction l with
    | nil => intro c d; simp
    | cons x xs ih =>
      intro c d
      simp only [List.foldl_cons]
      rw [add_assoc, ih]
  simpa using h l a 0

theorem is2dp_sum {l : List ℚ} (h : ∀ a ∈ l, Is2dp a) : Is2dp (sum l) := by
  induction l with
  | nil => exact is2dp_zero
  | cons a as ih =>
    rw [sum_cons]
    exact is2dp_add (h a (List.mem_cons_self a as)) (ih fun b hb => h b (List.mem_cons_of_mem a hb))

/-- The sum of values that are individually 2dp is fixed by rounding. -/
theorem round_sum_of_is2dp {l : List ℚ} (h : ∀ a ∈ l, Is2dp a) :
    round (sum l) = sum l :=
  round_of_is2dp (is2dp_sum h)

theorem round_nonneg_of_nonneg {x : ℚ} (hx : 0 ≤ x) : 0 ≤ round x := by
  unfold round
  rw [if_pos hx]
  have : (0 : ℤ) ≤ ⌊x * 100 + 1/2⌋ := by
    apply Int.floor_nonneg.mpr
    positivity
  positivity

theorem round_eq_iff_is2dp {x : ℚ} : round x = x ↔ Is2dp x := by
  constructor
  · intro h
    rw [← h]
    exact round_is2dp x
  · exact round_of_is2dp

end FinancialMath

/-! ## Ledger store (src/lib/storage.ts)

The browser storage is modelled as a typed record per user namespace:
day buckets and starting balances as association lists keyed by date,
plus the debts and borrows lists.  The JSON round-trip that storage.ts
performs on every read/write is lossless on well-formed values and is
modelled as the identity; an absent key reads as the default value, as in
the source (getDebts/getBorrows return [] and getDayData returns a fresh
bucket).  Platform identifier/timestamp generation (crypto.randomUUID(),
new Date().toISOString()) is passed in as explicit arguments. -/

inductive EntryType where
  | expense
  | income
deriving DecidableEq

structure Entry where
  id : Str
  type : EntryType
  amount : ℚ
  category : Str
  note : Option Str
  createdAt : Str
deriving DecidableEq

structure DayData where
  date : Str
  startingBalance : ℚ
  entries : List Entry
deriving DecidableEq

inductive DebtStatus where
  | unpaid
  | paid
deriving DecidableEq

abbrev BorrowStatus := DebtStatus

structure Debt where
  id : Str
  person : Str
  amount : ℚ
  note : Option Str
  status : DebtStatus
  createdAt : Str
  updatedAt : Str
  repaymentRecorded : Option Bool
  repaymentEntryId : Option Str
deriving DecidableEq

structure Borrow where
  id : Str
  person : Str
  amount : ℚ
  note : Option Str
  dueDate : Option Str
  status : BorrowStatus
  createdAt : Str
  updatedAt : Str
  repaymentRecorded : Option Bool
  repaymentEntryId : Option Str
deriving DecidableEq

/-- The persisted state of one user namespace. -/
structure Store where
  dayData : List (Str × DayData)
  dailyBal : List (Str × ℚ)
  debts : List Debt
  borrows : List Borrow
deriving DecidableEq

/-- localStorage.setItem on an association list: the new binding shadows
any previous binding of the same key. -/
def setAssoc {β : Type} (k : Str) (v : β) (l : List (Str × β)) : List (Str × β) :=
  (k, v) :: l.filter (fun p => p.1 ≠ k)

/-- getStartingBalance from storage.ts. -/
def getStartingBalance (dateKey : Str) (st : Store) : Option ℚ :=
  st.dailyBal.lookup dateKey

/-- setStartingBalance from storage.ts. -/
def setStartingBalance (dateKey : Str) (amount : ℚ) (st : Store) : Store :=
  { st with dailyBal := setAssoc dateKey amount st.dailyBal }

/-- getDayData from storage.ts: the stored bucket, or a lazily defaulted
bucket whose starting balance falls back to the daily-balance key (or 0). -/
def getDayData (dateKey : Str) (st : Store) : DayData :=
  (st.dayData.lookup dateKey).getD
    { date := dateKey, startingBalance := (getStartingBalance dateKey st).getD 0, entries := [] }

/-- saveDayData from storage.ts. -/
def saveDayData (day : DayData) (st : Store) : Store :=
  { st with dayData := setAssoc day.date day st.dayData }

/-- The caller-supplied part of an entry (Omit of id and createdAt). -/
structure NewEntry where
  type : EntryType
  amount : ℚ
  category : Str
  note : Option Str
deriving DecidableEq

/-- addEntry from storage.ts: round the amount, assign identifier and
timestamp, prepend to the bucket, persist. -/
def addEntry (newId now : Str) (dateKey : Str) (entry : NewEntry) (st : Store) :
    Entry × Store :=
  let validatedAmount := FinancialMath.round entry.amount
  let day := getDayData dateKey st
  let newEntry : Entry :=
    { id := newId, type := entry.type, amount := validatedAmount,
      category := entry.category, note := entry.note, createdAt := now }
  (newEntry, saveDayData { day with entries := newEntry :: day.entries } st)

/-- deleteEntry from storage.ts. -/
def deleteEntry (dateKey : Str) (entryId : Str) (st : Store) : Store :=
  let day := getDayData dateKey st
  saveDayData { day with entries := day.entries.filter (fun e => e.id ≠ entryId) } st

/-- The optional fields of an entry update (Partial of Pick). -/
structure EntryUpdates where
  type : Option EntryType
  amount : Option ℚ
  category : Option Str
  note : Option (Option Str)
deriving DecidableEq

/-- Merge of an entry with validated updates (object spread), the amount
re-rounded when present, as in updateEntry. -/
def mergeEntry (current : Entry) (updates : EntryUpdates) : Entry :=
  { current with
    type := updates.type.getD current.type,
    amount := (updates.amount.map FinancialMath.round).getD current.amount,
    category := updates.category.getD current.category,
    note := updates.note.getD current.note }

/-- The findIndex-then-assign step of updateEntry, as first-match update. -/
def updateEntryList (entryId : Str) (updates : EntryUpdates) :
    List Entry → List Entry × Option Entry
  | [] => ([], none)
  | e :: es =>
    if e.id = entryId then
      (mergeEntry e updates :: es, some (mergeEntry e updates))
    else
      let r := updateEntryList entryId updates es
      (e :: r.1, r.2)

/-- updateEntry from storage.ts: returns none when the id is not found,
otherwise the merged entry; persists on success. -/
def updateEntry (dateKey : Str) (entryId : Str) (updates : EntryUpdates) (st : Store) :
    Option Entry × Store :=
  let day := getDayData dateKey st
  let r := updateEntryList entryId updates day.entries
  match r.2 with
  | none => (none, st)
  | some e => (some e, saveDayData { day with entries := r.1 } st)

/-- getDebts from storage.ts (absent or corrupted key reads as []). -/
def getDebts (st : Store) : List Debt := st.debts

/-- getBorrows from storage.ts (absent or corrupted key reads as []). -/
def getBorrows (st : Store) : List Borrow := st.borrows

structure Totals where
  income : ℚ
  expenses : ℚ
  remaining : ℚ
deriving DecidableEq

/-- calculateTotals from storage.ts: decimal sums of the bucket's income
and expense entries; remaining built by chained decimal add/subtract over
the starting balance, the sum of ALL currently-unpaid debt amounts and the
sum of ALL currently-unpaid borrow amounts; all three results rounded. -/
def calculateTotals (day : DayData) (st : Store) : Totals :=
  let incomeEntries := day.entries.filter (fun e => e.type = EntryType.income)
  let expenseEntries := day.entries.filter (fun e => e.type = EntryType.expense)
  let income := FinancialMath.sum (incomeEntries.map Entry.amount)
  let expenses := FinancialMath.sum (expenseEntries.map Entry.amount)
  let unpaidDebts := FinancialMath.sum
    (((getDebts st).filter (fun d => d.status = DebtStatus.unpaid)).map Debt.amount)
  let unpaidBorrows := FinancialMath.sum
    (((getBorrows st).filter (fun b => b.status = DebtStatus.unpaid)).map Borrow.amount)
  let remaining0 := day.startingBalance
  let remaining1 := FinancialMath.add remaining0 income
  let remaining2 := FinancialMath.subtract remaining1 expenses
  let remaining3 := FinancialMath.subtract remaining2 unpaidDebts
  let remaining4 := FinancialMath.add remaining3 unpaidBorrows
  { income := FinancialMath.round income,
    expenses := FinancialMath.round expenses,
    remaining := FinancialMath.round remaining4 }

/-- getYesterdayEndingBalance from storage.ts; the yesterday date key is
produced by the platform clock (DateUtils.getYesterdayKey) and is passed
in explicitly. -/
def getYesterdayEndingBalance (yesterdayKey : Str) (st : Store) : Option ℚ :=
  let yesterdayData := getDayData yesterdayKey st
  if yesterdayData.entries = [] ∧ yesterdayData.startingBalance = 0 then
    none
  else
    some (calculateTotals yesterdayData st).remaining

/-- The caller-supplied part of a debt. -/
structure NewDebt where
  person : Str
  amount : ℚ
  note : Option Str
deriving DecidableEq

/-- addDebt from storage.ts. -/
def addDebt (newId now : Str) (input : NewDebt) (st : Store) : Debt × Store :=
  let validatedAmount := FinancialMath.round input.amount
  let debt : Debt :=
    { id := newId, person := jsTrim input.person, amount := validatedAmount,
      note := (input.note.map jsTrim).bind (fun n => if n = [] then none else some n),
      status := DebtStatus.unpaid, createdAt := now, updatedAt := now,
      repaymentRecorded := none, repaymentEntryId := none }
  (debt, { st with debts := debt :: st.debts })

/-- The findIndex-then-assign step shared by setDebtStatus and
markDebtPaid: update the first debt with the given id. -/
def setDebtStatusList (now : Str) (debtId : Str) (status : DebtStatus) :
    List Debt → List Debt × Option Debt
  | [] => ([], none)
  | d :: ds =>
    if d.id = debtId then
      ({ d with status := status, updatedAt := now } :: ds,
       some { d with status := status, updatedAt := now })
    else
      let r := setDebtStatusList now debtId status ds
      (d :: r.1, r.2)

/-- setDebtStatus from storage.ts. -/
def setDebtStatus (now : Str) (debtId : Str) (status : DebtStatus) (st : Store) :
    Option Debt × Store :=
  let r := setDebtStatusList now debtId status st.debts
  match r.2 with
  | none => (none, st)
  | some d => (some d, { st with debts := r.1 })

/-- Result shape of markDebtPaid: the updated debt and the (never created)
synthetic income entry. -/
structure MarkDebtPaidResult where
  debt : Option Debt
  createdIncome : Option Entry
deriving DecidableEq

/-- markDebtPaid from storage.ts: mark the first matching debt paid and
stamp updatedAt; no income entry is created. -/
def markDebtPaid (now : Str) (debtId : Str) (st : Store) :
    MarkDebtPaidResult × Store :=
  let r := setDebtStatusList now debtId DebtStatus.paid st.debts
  match r.2 with
  | none => ({ debt := none, createdIncome := none }, st)
  | some d => ({ debt := some d, createdIncome := none }, { st with debts := r.1 })

/-- The caller-supplied part of a borrow. -/
structure NewBorrow where
  person : Str
  amount : ℚ
  note : Option Str
  dueDate : Option Str
deriving DecidableEq

/-- addBorrow from storage.ts. -/
def addBorrow (newId now : Str) (input : NewBorrow) (st : Store) : Borrow × Store :=
  let validatedAmount := FinancialMath.round input.amount
  let borrow : Borrow :=
    { id := newId, person := jsTrim input.person, amount := validatedAmount,
      note := (input.note.map jsTrim).bind (fun n => if n = [] then none else some n),
      dueDate := input.dueDate,
      status := DebtStatus.unpaid, createdAt := now, updatedAt := now,
      repaymentRecorded := none, repaymentEntryId := none }
  (borrow, { st with borrows := borrow :: st.borrows })

/-- First-match status update for borrows, shared by setBorrowStatus and
markBorrowPaid. -/
def setBorrowStatusList (now : Str) (borrowId : Str) (status : BorrowStatus) :
    List Borrow → List Borrow × Option Borrow
  | [] => ([], none)
  | b :: bs =>
    if b.id = borrowId then
      ({ b with status := status, updatedAt := now } :: bs,
       some { b with status := status, updatedAt := now })
    else
      let r := setBorrowStatusList now borrowId status bs
      (b :: r.1, r.2)

/-- setBorrowStatus from storage.ts. -/
def setBorrowStatus (now : Str) (borrowId : Str) (status : BorrowStatus) (st : Store) :
    Option Borrow × Store :=
  let r := setBorrowStatusList now borrowId status st.borrows
  match r.2 with
  | none => (none, st)
  | some b => (some b, { st with borrows := r.1 })

/-- Result shape of markBorrowPaid. -/
structure MarkBorrowPaidResult where
  borrow : Option Borrow
  createdExpense : Option Entry
deriving DecidableEq

/-- markBorrowPaid from storage.ts: mark the first matching borrow paid
and stamp updatedAt; no expense entry is created. -/
def markBorrowPaid (now : Str) (borrowId : Str) (st : Store) :
    MarkBorrowPaidResult × Store :=
  let r := setBorrowStatusList now borrowId DebtStatus.paid st.borrows
  match r.2 with
  | none => ({ borrow := none, createdExpense := none }, st)
  | some b => ({ borrow := some b, createdExpense := none }, { st with borrows := r.1 })

/-! ## Helper lemmas about the store operations -/

theorem updateEntryList_amount (entryId : Str) (upd : EntryUpdates) (q : ℚ)
    (hq : upd.amount = some q) :
    ∀ (l : List Entry) (e : Entry),
      (updateEntryList entryId upd l).2 = some e → e.amount = FinancialMath.round q := by
  intro l
  induction l with
  | nil => intro e h; simp [updateEntryList] at h
  | cons a as ih =>
    intro e h
    by_cases hid : a.id = entryId
    · simp only [updateEntryList, if_pos hid] at h
      cases h
      simp [mergeEntry, hq]
    · simp only [updateEntryList, if_neg hid] at h
      exact ih e h

theorem setDebtStatusList_length (now debtId : Str) (status : DebtStatus) :
    ∀ l : List Debt, (setDebtStatusList now debtId status l).1.length = l.length := by
  intro l
  induction l with
  | nil => rfl
  | cons d ds ih =>
    by_cases hid : d.id = debtId
    · simp [setDebtStatusList, if_pos hid]
    · simp [setDebtStatusList, if_neg hid, ih]

theorem setDebtStatusList_get? (now debtId : Str) (status : DebtStatus) :
    ∀ (l : List Debt) (i : Nat) (d d' : Debt),
      l.get? i = some d → (setDebtStatusList now debtId status l).1.get? i = some d' →
      d'.id = d.id ∧ d'.person = d.person ∧ d'.amount = d.amount ∧ d'.note = d.note
      ∧ d'.createdAt = d.createdAt ∧ d'.repaymentRecorded = d.repaymentRecorded
      ∧ d'.repaymentEntryId = d.repaymentEntryId
      ∧ (d' = d ∨ (d.id = debtId ∧ d'.status = status ∧ d'.updatedAt = now)) := by
  intro l
  induction l with
  | nil => intro i d d' h; simp at h
  | cons a as ih =>
    intro i d d' hget hget'
    by_cases hid : a.id = debtId
    · simp only [setDebtStatusList, if_pos hid] at hget'
      cases i with
      | zero =>
        simp only [List.get?] at hget hget'
        cases hget; cases hget'
        exact ⟨rfl, rfl, rfl, rfl, rfl, rfl, rfl, Or.inr ⟨hid, rfl, rfl⟩⟩
      | succ j =>
        simp only [List.get?] at hget hget'
        rw [hget'] at hget
        cases hget
        exact ⟨rfl, rfl, rfl, rfl, rfl, rfl, rfl, Or.inl rfl⟩
    · simp only [setDebtStatusList, if_neg hid] at hget'
      cases i with
      | zero =>
        simp only [List.get?] at hget hget'
        cases hget; cases hget'
        exact ⟨rfl, rfl, rfl, rfl, rfl, rfl, rfl, Or.inl rfl⟩
      | succ j =>
        simp only [List.get?] at hget hget'
        exact ih j d d' hget hget'

theorem setBorrowStatusList_length (now borrowId : Str) (status : BorrowStatus) :
    ∀ l : List Borrow, (setBorrowStatusList now borrowId status l).1.length = l.length := by
  intro l
  induction l with
  | nil => rfl
  | cons b bs ih =>
    by_cases hid : b.id = borrowId
    · simp [setBorrowStatusList, if_pos hid]
    · simp [setBorrowStatusList, if_neg hid, ih]

theorem setBorrowStatusList_get? (now borrowId : Str) (status : BorrowStatus) :
    ∀ (l : List Borrow) (i : Nat) (b b' : Borrow),
      l.get? i = some b → (setBorrowStatusList now borrowId status l).1.get? i = some b' →
      b'.id = b.id ∧ b'.person = b.person ∧ b'.amount = b.amount ∧ b'.note = b.note
      ∧ b'.dueDate = b.dueDate
      ∧ b'.createdAt = b.createdAt ∧ b'.repaymentRecorded = b.repaymentRecorded
      ∧ b'.repaymentEntryId = b.repaymentEntryId
      ∧ (b' = b ∨ (b.id = borrowId ∧ b'.status = status ∧ b'.updatedAt = now)) := by
  intro l
  induction l with
  | nil => intro i b b' h; simp at h
  | cons a as ih =>
    intro i b b' hget hget'
    by_cases hid : a.id = borrowId
    · simp only [setBorrowStatusList, if_pos hid] at hget'
      cases i with
      | zero =>
        simp only [List.get?] at hget hget'
        cases hget; cases hget'
        exact ⟨rfl, rfl, rfl, rfl, rfl, rfl, rfl, rfl, Or.inr ⟨hid, rfl, rfl⟩⟩
      | succ j =>
        simp only [List.get?] at hget hget'
        rw [hget'] at hget
        cases hget
        exact ⟨rfl, rfl, rfl, rfl, rfl, rfl, rfl, rfl, Or.inl rfl⟩
    · simp only [setBorrowStatusList, if_neg hid] at hget'
      cases i with
      | zero =>
        simp only [List.get?] at hget hget'
        cases hget; cases hget'
        exact ⟨rfl, rfl, rfl, rfl, rfl, rfl, rfl, rfl, Or.inl rfl⟩
      | succ j =>
        simp only [List.get?] at hget hget'
        exact ih j b b' hget hget'

/-! ## Claim theorems about the ledger store -/

/-- Decimal sum of the bucket's income entry amounts. -/
def incomeSum (day : DayData) : ℚ :=
  FinancialMath.sum ((day.entries.filter (fun e => e.type = EntryType.income)).map Entry.amount)

/-- Decimal sum of the bucket's expense entry amounts. -/
def expenseSum (day : DayData) : ℚ :=
  FinancialMath.sum ((day.entries.filter (fun e => e.type = EntryType.expense)).map Entry.amount)

/-- Sum of the amounts of ALL currently-unpaid debts in the namespace. -/
def unpaidDebtSum (st : Store) : ℚ :=
  FinancialMath.sum (((getDebts st).filter (fun d => d.status = DebtStatus.unpaid)).map Debt.amount)

/-- Sum of the amounts of ALL currently-unpaid borrows in the namespace. -/
def unpaidBorrowSum (st : Store) : ℚ :=
  FinancialMath.sum (((getBorrows st).filter (fun b => b.status = DebtStatus.unpaid)).map Borrow.amount)

/-- C1: for every day bucket whose entry amounts respect the 2dp storage
invariant, calculateTotals returns income equal to the decimal sum of the
bucket's income entries, expenses equal to the decimal sum of its expense
entries, and remaining equal to
round(startingBalance + income − expenses − D + R), where D sums the
amounts of ALL currently-unpaid debts and R the amounts of ALL
currently-unpaid borrows in the user's namespace — with no dependence on
the day any debt or borrow was created. -/
theorem calculateTotals_balance_formula (day : DayData) (st : Store)
    (h : ∀ e ∈ day.entries, FinancialMath.round e.amount = e.amount) :
    (calculateTotals day st).income = incomeSum day
    ∧ (calculateTotals day st).expenses = expenseSum day
    ∧ (calculateTotals day st).remaining
      = FinancialMath.round (day.startingBalance + incomeSum day - expenseSum day
          - unpaidDebtSum st + unpaidBorrowSum st) := by
  refine ⟨?_, ?_, rfl⟩
  · show FinancialMath.round (incomeSum day) = incomeSum day
    apply FinancialMath.round_sum_of_is2dp
    intro a ha
    simp only [List.mem_map, List.mem_filter] at ha
    obtain ⟨e, ⟨he, _⟩, rfl⟩ := ha
    exact FinancialMath.round_eq_iff_is2dp.mp (h e he)
  · show FinancialMath.round (expenseSum day) = expenseSum day
    apply FinancialMath.round_sum_of_is2dp
    intro a ha
    simp only [List.mem_map, List.mem_filter] at ha
    obtain ⟨e, ⟨he, _⟩, rfl⟩ := ha
    exact FinancialMath.round_eq_iff_is2dp.mp (h e he)

/-- Day bucket of the specification's worked example: B = 100, one income
of 50, one expense of 20. -/
def dayW : DayData :=
  { date := "2024-01-02".toList, startingBalance := 100,
    entries :=
      [ { id := "i1".toList, type := EntryType.income, amount := 50,
          category := "Salary".toList, note := none, createdAt := "t1".toList },
        { id := "x1".toList, type := EntryType.expense, amount := 20,
          category := "Food".toList, note := none, createdAt := "t2".toList } ] }

/-- Namespace state of the worked example: one unpaid debt of 30 (created
on a different calendar day) and one unpaid borrow of 10. -/
def stW : Store :=
  { dayData := [], dailyBal := [],
    debts :=
      [ { id := "d1".toList, person := "Alex".toList, amount := 30, note := none,
          status := DebtStatus.unpaid, createdAt := "2023-11-05".toList,
          updatedAt := "2023-11-05".toList, repaymentRecorded := none,
          repaymentEntryId := none } ],
    borrows :=
      [ { id := "b1".toList, person := "Sara".toList, amount := 10, note := none,
          dueDate := none, status := DebtStatus.unpaid, createdAt := "2023-12-31".toList,
          updatedAt := "2023-12-31".toList, repaymentRecorded := none,
          repaymentEntryId := none } ] }

/-- Witness for the balance formula at the worked example:
100 + 50 − 20 − 30 + 10 = 110. -/
theorem calculateTotals_balance_formula_witness :
    (calculateTotals dayW stW).remaining = 110 := by
  have h := (calculateTotals_balance_formula dayW stW (by with_unfolding_all decide)).2.2
  rw [h]
  with_unfolding_all decide

/-- The empty user namespace. -/
def emptyStore : Store := { dayData := [], dailyBal := [], debts := [], borrows := [] }

/-- C6 counterexample: the store operations perform no sign check, so
addEntry invoked with amount −5 stores a negative amount, refuting
"every amount stored ... is never ... negative". -/
theorem addEntry_stores_negative_amount :
    ((addEntry ("e9".toList) ("2024-01-01T00:00:00Z".toList) ("2024-01-01".toList)
        { type := EntryType.expense, amount := -5, category := "Food".toList, note := none }
        emptyStore).1).amount < 0 := by
  with_unfolding_all decide

/-- C6 amended: round is idempotent; every amount stored by addEntry,
addDebt, addBorrow and (when an amount update is present) updateEntry is
exactly round of the supplied amount — hence round(stored) = stored — and
rounding preserves nonnegativity, so stored amounts are nonnegative
whenever the (validated) input amount is; the store itself performs no
sign check. -/
theorem round_idempotent_stored_rounded :
    (∀ x : ℚ, FinancialMath.round (FinancialMath.round x) = FinancialMath.round x)
    ∧ (∀ newId now dateKey ne st,
        ((addEntry newId now dateKey ne st).1).amount = FinancialMath.round ne.amount)
    ∧ (∀ newId now input st,
        ((addDebt newId now input st).1).amount = FinancialMath.round input.amount)
    ∧ (∀ newId now input st,
        ((addBorrow newId now input st).1).amount = FinancialMath.round input.amount)
    ∧ (∀ dateKey entryId upd (q : ℚ) st e, upd.amount = some q →
        (updateEntry dateKey entryId upd st).1 = some e →
        e.amount = FinancialMath.round q)
    ∧ (∀ x : ℚ, 0 ≤ x → 0 ≤ FinancialMath.round x) := by
  refine ⟨FinancialMath.round_round, fun _ _ _ _ _ => rfl, fun _ _ _ _ => rfl,
    fun _ _ _ _ => rfl, ?_, fun _ => FinancialMath.round_nonneg_of_nonneg⟩
  intro dateKey entryId upd q st e hq he
  unfold updateEntry at he
  dsimp only at he
  split at he
  next h2 => simp at he
  next e0 h2 =>
    simp only [Option.some.injEq] at he
    subst he
    exact updateEntryList_amount entryId upd q hq _ e0 h2

/-- Concrete update payload: set the amount to 7/2. -/
def updW : EntryUpdates := { type := none, amount := some (7/2), category := none, note := none }

/-- A one-entry store to update. -/
def stU : Store :=
  { dayData :=
      [ ("2024-01-01".toList,
         { date := "2024-01-01".toList, startingBalance := 0,
           entries :=
             [ { id := "e1".toList, type := EntryType.expense, amount := 2,
                 category := "Food".toList, note := none, createdAt := "t".toList } ] }) ],
    dailyBal := [], debts := [], borrows := [] }

/-- The entry produced by the concrete update. -/
def eU : Entry :=
  { id := "e1".toList, type := EntryType.expense, amount := 7/2,
    category := "Food".toList, note := none, createdAt := "t".toList }

/-- Witness for the amended rounding invariant: a concrete updateEntry
with amount 7/2 stores round(7/2). -/
theorem round_idempotent_stored_rounded_witness :
    eU.amount = FinancialMath.round (7/2) :=
  round_idempotent_stored_rounded.2.2.2.2.1
    ("2024-01-01".toList) ("e1".toList) updW (7/2) stU eU
    (by with_unfolding_all decide) (by with_unfolding_all decide)

/-- C7: markDebtPaid and markBorrowPaid are status-only mutations: they
create no synthetic income/expense entry, leave every other part of the
store untouched, preserve each record's id, person, amount, note,
creation timestamp (and repayment bookkeeping fields), and at most flip
the first matching record's status to "paid" while stamping updatedAt. -/
theorem markPaid_status_only (now debtId borrowId : Str) (st : Store) :
    ((markDebtPaid now debtId st).1).createdIncome = none
    ∧ ((markBorrowPaid now borrowId st).1).createdExpense = none
    ∧ ((markDebtPaid now debtId st).2).dayData = st.dayData
    ∧ ((markDebtPaid now debtId st).2).dailyBal = st.dailyBal
    ∧ ((markDebtPaid now debtId st).2).borrows = st.borrows
    ∧ ((markBorrowPaid now borrowId st).2).dayData = st.dayData
    ∧ ((markBorrowPaid now borrowId st).2).dailyBal = st.dailyBal
    ∧ ((markBorrowPaid now borrowId st).2).debts = st.debts
    ∧ ((markDebtPaid now debtId st).2).debts.length = st.debts.length
    ∧ ((markBorrowPaid now borrowId st).2).borrows.length = st.borrows.length
    ∧ (∀ i d d', st.debts.get? i = some d →
        ((markDebtPaid now debtId st).2).debts.get? i = some d' →
        d'.id = d.id ∧ d'.person = d.person ∧ d'.amount = d.amount ∧ d'.note = d.note
        ∧ d'.createdAt = d.createdAt ∧ d'.repaymentRecorded = d.repaymentRecorded
        ∧ d'.repaymentEntryId = d.repaymentEntryId
        ∧ (d' = d ∨ (d.id = debtId ∧ d'.status = DebtStatus.paid ∧ d'.updatedAt = now)))
    ∧ (∀ i b b', st.borrows.get? i = some b →
        ((markBorrowPaid now borrowId st).2).borrows.get? i = some b' →
        b'.id = b.id ∧ b'.person = b.person ∧ b'.amount = b.amount ∧ b'.note = b.note
        ∧ b'.dueDate = b.dueDate
        ∧ b'.createdAt = b.createdAt ∧ b'.repaymentRecorded = b.repaymentRecorded
        ∧ b'.repaymentEntryId = b.repaymentEntryId
        ∧ (b' = b ∨ (b.id = borrowId ∧ b'.status = DebtStatus.paid ∧ b'.updatedAt = now))) := by
  have hdElem :
      ∀ i d d', st.debts.get? i = some d →
        ((markDebtPaid now debtId st).2).debts.get? i = some d' →
        d'.id = d.id ∧ d'.person = d.person ∧ d'.amount = d.amount ∧ d'.note = d.note
        ∧ d'.createdAt = d.createdAt ∧ d'.repaymentRecorded = d.repaymentRecorded
        ∧ d'.repaymentEntryId = d.repaymentEntryId
        ∧ (d' = d ∨ (d.id = debtId ∧ d'.status = DebtStatus.paid ∧ d'.updatedAt = now)) := by
    intro i d d' hget hget'
    unfold markDebtPaid at hget'
    dsimp only at hget'
    split at hget'
    · rw [hget'] at hget
      cases hget
      exact ⟨rfl, rfl, rfl, rfl, rfl, rfl, rfl, Or.inl rfl⟩
    · exact setDebtStatusList_get? now debtId DebtStatus.paid st.debts i d d' hget hget'
  have hbElem :
      ∀ i b b', st.borrows.get? i = some b →
        ((markBorrowPaid now borrowId st).2).borrows.get? i = some b' →
        b'.id = b.id ∧ b'.person = b.person ∧ b'.amount = b.amount ∧ b'.note = b.note
        ∧ b'.dueDate = b.dueDate
        ∧ b'.createdAt = b.createdAt ∧ b'.repaymentRecorded = b.repaymentRecorded
        ∧ b'.repaymentEntryId = b.repaymentEntryId
        ∧ (b' = b ∨ (b.id = borrowId ∧ b'.status = DebtStatus.paid ∧ b'.updatedAt = now)) := by
    intro i b b' hget hget'
    unfold markBorrowPaid at hget'
    dsimp only at hget'
    split at hget'
    · rw [hget'] at hget
      cases hget
      exact ⟨rfl, rfl, rfl, rfl, rfl, rfl, rfl, rfl, Or.inl rfl⟩
    · exact setBorrowStatusList_get? now borrowId DebtStatus.paid st.borrows i b b' hget hget'
  have hdLen : ((markDebtPaid now debtId st).2).debts.length = st.debts.length := by
    unfold markDebtPaid
    dsimp only
    split
    · rfl
    · exact setDebtStatusList_length now debtId DebtStatus.paid st.debts
  have hbLen : ((markBorrowPaid now borrowId st).2).borrows.length = st.borrows.length := by
    unfold markBorrowPaid
    dsimp only
    split
    · rfl
    · exact setBorrowStatusList_length now borrowId DebtStatus.paid st.borrows
  have hdCreated : ((markDebtPaid now debtId st).1).createdIncome = none := by
    unfold markDebtPaid
    dsimp only
    split <;> rfl
  have hbCreated : ((markBorrowPaid now borrowId st).1).createdExpense = none := by
    unfold markBorrowPaid
    dsimp only
    split <;> rfl
  have hdDay : ((markDebtPaid now debtId st).2).dayData = st.dayData := by
    unfold markDebtPaid
    dsimp only
    split <;> rfl
  have hdBal : ((markDebtPaid now debtId st).2).dailyBal = st.dailyBal := by
    unfold markDebtPaid
    dsimp only
    split <;> rfl
  have hdBor : ((markDebtPaid now debtId st).2).borrows = st.borrows := by
    unfold markDebtPaid
    dsimp only
    split <;> rfl
  have hbDay : ((markBorrowPaid now borrowId st).2).dayData = st.dayData := by
    unfold markBorrowPaid
    dsimp only
    split <;> rfl
  have hbBal : ((markBorrowPaid now borrowId st).2).dailyBal = st.dailyBal := by
    unfold markBorrowPaid
    dsimp only
    split <;> rfl
  have hbDeb : ((markBorrowPaid now borrowId st).2).debts = st.debts := by
    unfold markBorrowPaid
    dsimp only
    split <;> rfl
  exact ⟨hdCreated, hbCreated, hdDay, hdBal, hdBor, hbDay, hbBal, hbDeb, hdLen, hbLen,
    hdElem, hbElem⟩

/-- Witness for the status-only frame property: in the worked-example
store, marking debt d1 paid preserves its amount and person. -/
theorem markPaid_status_only_witness :
    (({ id := "d1".toList, person := "Alex".toList, amount := 30, note := none,
        status := DebtStatus.paid, createdAt := "2023-11-05".toList,
        updatedAt := "2024-02-02".toList, repaymentRecorded := none,
        repaymentEntryId := none } : Debt).amount = 30)
    ∧ (((markDebtPaid ("2024-02-02".toList) ("d1".toList) stW).1).createdIncome = none) := by
  have h := markPaid_status_only ("2024-02-02".toList) ("d1".toList) ("b1".toList) stW
  refine ⟨?_, h.1⟩
  have helem := h.2.2.2.2.2.2.2.2.2.2.1 0
    ({ id := "d1".toList, person := "Alex".toList, amount := 30, note := none,
       status := DebtStatus.unpaid, createdAt := "2023-11-05".toList,
       updatedAt := "2023-11-05".toList, repaymentRecorded := none,
       repaymentEntryId := none } : Debt)
    ({ id := "d1".toList, person := "Alex".toList, amount := 30, note := none,
       status := DebtStatus.paid, createdAt := "2023-11-05".toList,
       updatedAt := "2024-02-02".toList, repaymentRecorded := none,
       repaymentEntryId := none } : Debt)
    (by with_unfolding_all decide) (by with_unfolding_all decide)
  exact helem.2.2.1.symm.trans rfl

/-- C10: getYesterdayEndingBalance returns null exactly when yesterday's
bucket has no entries and a starting balance equal to 0 (an explicitly
saved 0 included), and otherwise returns the remaining field of
calculateTotals of yesterday's bucket — which therefore reflects all
currently-unpaid debts and borrows. -/
theorem getYesterdayEndingBalance_spec (yesterdayKey : Str) (st : Store) :
    (getYesterdayEndingBalance yesterdayKey st = none ↔
      ((getDayData yesterdayKey st).entries = []
        ∧ (getDayData yesterdayKey st).startingBalance = 0))
    ∧ (∀ r, getYesterdayEndingBalance yesterdayKey st = some r →
        r = (calculateTotals (getDayData yesterdayKey st) st).remaining) := by
  unfold getYesterdayEndingBalance
  dsimp only
  split
  next hcond =>
    constructor
    · exact ⟨fun _ => hcond, fun _ => rfl⟩
    · intro r hr
      simp at hr
  next hcond =>
    constructor
    · constructor
      · intro h
        simp at h
      · intro h
        exact absurd h hcond
    · intro r hr
      simp only [Option.some.injEq] at hr
      exact hr.symm

/-- Yesterday bucket present with an explicitly saved starting balance of
0 and no entries (both the day_data record and the daily_balance key). -/
def stY : Store :=
  { dayData :=
      [ ("2024-01-01".toList,
         { date := "2024-01-01".toList, startingBalance := 0, entries := [] }) ],
    dailyBal := [("2024-01-01".toList, 0)], debts := [], borrows := [] }

/-- Yesterday bucket carrying the worked example data. -/
def stY2 : Store :=
  { dayData :=
      [ ("2024-01-01".toList,
         { date := "2024-01-01".toList, startingBalance := 100, entries := dayW.entries }) ],
    dailyBal := [], debts := stW.debts, borrows := stW.borrows }

/-- Witness: explicit zero starting balance with no entries yields null;
a populated yesterday yields calculateTotals' remaining. -/
theorem getYesterdayEndingBalance_spec_witness :
    getYesterdayEndingBalance ("2024-01-01".toList) stY = none
    ∧ (110 : ℚ)
      = (calculateTotals (getDayData ("2024-01-01".toList) stY2) stY2).remaining :=
  ⟨(getYesterdayEndingBalance_spec ("2024-01-01".toList) stY).1.mpr
      (by with_unfolding_all decide),
   (getYesterdayEndingBalance_spec ("2024-01-01".toList) stY2).2 110
      (by with_unfolding_all decide)⟩

/-! ## Erase scoping (storage.ts: currentUserNs, eraseAllData)

For the cross-namespace claims the storage is modelled raw: the list of
persisted string keys.  eraseAllData collects every key starting with the
namespaced day-data or daily-balance prefixes, removes them, then removes
the namespaced debts and borrows keys; on the key list this is a filter. -/

def DAILY_BAL_PREFIX : Str := "daily_balance_".toList

def DAY_DATA_PREFIX : Str := "day_data_".toList

def DEBTS_KEY : Str := "debts_v1".toList

def BORROWS_KEY : Str := "borrows_v1".toList

/-- currentUserNs from storage.ts: the namespace prefix derived from the
authenticated user id (the source additionally validates that the id is a
36-character UUID before building the prefix). -/
def currentUserNs (uid : Str) : Str := "user_".toList ++ uid ++ "_".toList

/-- A key eraseAllData removes: it starts with the namespaced
daily-balance or day-data prefix, or is the namespaced debts/borrows key. -/
def shouldEraseKey (ns k : Str) : Bool :=
  (ns ++ DAILY_BAL_PREFIX).isPrefixOf k || (ns ++ DAY_DATA_PREFIX).isPrefixOf k
  || k = ns ++ DEBTS_KEY || k = ns ++ BORROWS_KEY

/-- eraseAllData from storage.ts, on the raw key list. -/
def eraseAllData (ns : Str) (keys : List Str) : List Str :=
  keys.filter (fun k => !(shouldEraseKey ns k))

theorem prefix_eq_of_length_eq {α : Type} {l₁ l₂ l : List α}
    (h₁ : l₁ <+: l) (h₂ : l₂ <+: l) (hlen : l₁.length = l₂.length) : l₁ = l₂ := by
  rw [List.prefix_iff_eq_take] at h₁ h₂
  rw [h₁, h₂, hlen]

theorem currentUserNs_inj {uidA uidB : Str}
    (h : currentUserNs uidA = currentUserNs uidB) :
    uidA = uidB := by
  unfold currentUserNs at h
  have h2 : "user_".toList ++ uidA = "user_".toList ++ uidB := List.append_cancel_right h
  exact List.append_cancel_left h2

theorem ns_prefix_of_shouldErase {ns k : Str} (h : shouldEraseKey ns k = true) :
    ns <+: k := by
  unfold shouldEraseKey at h
  simp only [Bool.or_eq_true, List.isPrefixOf_iff_prefix, decide_eq_true_eq] at h
  rcases h with ((h | h) | h) | h
  · exact (List.prefix_append ns DAILY_BAL_PREFIX).trans h
  · exact (List.prefix_append ns DAY_DATA_PREFIX).trans h
  · rw [h]; exact List.prefix_append ns DEBTS_KEY
  · rw [h]; exact List.prefix_append ns BORROWS_KEY

/-- C9: eraseAllData removes every persisted day bucket, starting-balance
key, debt list and borrow list of the current user's namespace, and — for
any two distinct user ids of the same length (the source enforces
36-character UUIDs) — leaves every key belonging to the other user's
namespace in place. -/
theorem eraseAllData_scoped (uidA uidB : Str) (keys : List Str)
    (hlen : uidA.length = uidB.length) (hne : uidA ≠ uidB) :
    (∀ suffix : Str,
        (currentUserNs uidA ++ DAILY_BAL_PREFIX ++ suffix)
            ∉ eraseAllData (currentUserNs uidA) keys
        ∧ (currentUserNs uidA ++ DAY_DATA_PREFIX ++ suffix)
            ∉ eraseAllData (currentUserNs uidA) keys)
    ∧ (currentUserNs uidA ++ DEBTS_KEY) ∉ eraseAllData (currentUserNs uidA) keys
    ∧ (currentUserNs uidA ++ BORROWS_KEY) ∉ eraseAllData (currentUserNs uidA) keys
    ∧ (∀ k ∈ keys, (currentUserNs uidB) <+: k →
        k ∈ eraseAllData (currentUserNs uidA) keys) := by
  have hmem : ∀ k, k ∈ eraseAllData (currentUserNs uidA) keys →
      shouldEraseKey (currentUserNs uidA) k = false := by
    intro k hk
    have := (List.mem_filter.mp hk).2
    simpa using this
  have hByPrefix : ∀ k, (currentUserNs uidA ++ DAILY_BAL_PREFIX) <+: k ∨
      (currentUserNs uidA ++ DAY_DATA_PREFIX) <+: k ∨
      k = currentUserNs uidA ++ DEBTS_KEY ∨ k = currentUserNs uidA ++ BORROWS_KEY →
      k ∉ eraseAllData (currentUserNs uidA) keys := by
    intro k hk hmem'
    have hfalse := hmem k hmem'
    have htrue : shouldEraseKey (currentUserNs uidA) k = true := by
      unfold shouldEraseKey
      rcases hk with h | h | h | h
      · simp [List.isPrefixOf_iff_prefix, h]
      · simp [List.isPrefixOf_iff_prefix, h]
      · simp [h]
      · simp [h]
    rw [htrue] at hfalse
    simp at hfalse
  refine ⟨?_, ?_, ?_, ?_⟩
  · intro suffix
    constructor
    · exact hByPrefix _ (Or.inl (List.prefix_append _ _))
    · exact hByPrefix _ (Or.inr (Or.inl (List.prefix_append _ _)))
  · exact hByPrefix _ (Or.inr (Or.inr (Or.inl rfl)))
  · exact hByPrefix _ (Or.inr (Or.inr (Or.inr rfl)))
  · intro k hk hpre
    apply List.mem_filter.mpr
    refine ⟨hk, ?_⟩
    cases herase : shouldEraseKey (currentUserNs uidA) k with
    | false => simp
    | true =>
      exfalso
      have hA : currentUserNs uidA <+: k := ns_prefix_of_shouldErase herase
      have hlenNs : (currentUserNs uidA).length = (currentUserNs uidB).length := by
        unfold currentUserNs
        simp [hlen]
      exact hne (currentUserNs_inj (prefix_eq_of_length_eq hA hpre hlenNs))

/-- Witness for erase scoping: with users a0/b0, user b0's debts key and a
day bucket survive user a0's erase, while a0's own keys are removed. -/
theorem eraseAllData_scoped_witness :
    ((currentUserNs ("a0".toList) ++ DEBTS_KEY)
        ∉ eraseAllData (currentUserNs ("a0".toList))
            [currentUserNs ("a0".toList) ++ DEBTS_KEY,
             currentUserNs ("b0".toList) ++ DEBTS_KEY])
    ∧ ((currentUserNs ("b0".toList) ++ DEBTS_KEY)
        ∈ eraseAllData (currentUserNs ("a0".toList))
            [currentUserNs ("a0".toList) ++ DEBTS_KEY,
             currentUserNs ("b0".toList) ++ DEBTS_KEY]) := by
  have h := eraseAllData_scoped ("a0".toList) ("b0".toList)
    [currentUserNs ("a0".toList) ++ DEBTS_KEY,
     currentUserNs ("b0".toList) ++ DEBTS_KEY]
    (by decide) (by decide)
  exact ⟨h.2.1, h.2.2.2 _ (by simp) (List.prefix_append _ _)⟩

/-! ## Error classifier and retry policy (src/lib/ai-error-handler.ts)

A thrown JavaScript error is modelled by its name and message; an async
operation is modelled as a function from the attempt number to its
outcome.  Real-time backoff cannot be modelled, so withRetry additionally
returns the number of invocations it made and the list of backoff delays
(in milliseconds) it would sleep, in order. -/

/-- The name/message surface of a thrown JS error. -/
structure JsError where
  name : Str
  message : Str
deriving DecidableEq

/-- The AIError taxonomy of ai-error-handler.ts. -/
structure AIError where
  code : Str
  message : Str
  retryable : Bool
  context : Str
deriving DecidableEq

/-- JavaScript String.prototype.includes: sub occurs somewhere in s. -/
def includes : Str → Str → Bool
  | [], sub => sub.isPrefixOf []
  | c :: t, sub => sub.isPrefixOf (c :: t) || includes t sub

/-- classifyError from ai-error-handler.ts: the ordered if-chain over the
error's name and message. -/
def classifyError (error : JsError) (context : Str) : AIError :=
  if error.name = "NetworkError".toList ∨ includes error.message ("fetch".toList) then
    { code := "NETWORK_ERROR".toList,
      message := "Network connection failed. Please check your internet connection.".toList,
      retryable := true, context := context }
  else if includes error.message ("429".toList) ∨ includes error.message ("rate limit".toList) then
    { code := "RATE_LIMITED".toList,
      message := "Too many requests. Please wait a moment and try again.".toList,
      retryable := true, context := context }
  else if includes error.message ("401".toList) ∨ includes error.message ("403".toList) then
    { code := "AUTH_ERROR".toList,
      message := "API key is invalid or expired. Please check your API keys.".toList,
      retryable := false, context := context }
  else if includes error.message ("500".toList) ∨ includes error.message ("502".toList)
      ∨ includes error.message ("503".toList) then
    { code := "SERVER_ERROR".toList,
      message := "AI service is temporarily unavailable. Please try again later.".toList,
      retryable := true, context := context }
  else if includes error.message ("timeout".toList) then
    { code := "TIMEOUT_ERROR".toList,
      message := "Request timed out. Please try again.".toList,
      retryable := true, context := context }
  else
    { code := "UNKNOWN_ERROR".toList,
      message := "An unexpected error occurred: ".toList ++ error.message,
      retryable := false, context := context }

def MAX_RETRIES : Nat := 3

def RETRY_DELAYS : List Nat := [1000, 2000, 4000]

/-- The attempt loop of withRetry.  Structure of the source: try the
operation; on failure classify; throw the classified error when it is not
retryable or this was the last attempt, else sleep RETRY_DELAYS[attempt]
and loop.  The fuel argument mirrors the loop bound; the fuel-exhausted
branch is the (unreachable) post-loop throw of the classified last error.
Returns (outcome, number of invocations made, backoff delays slept). -/
def withRetryGo {α : Type} (op : Nat → Except JsError α) (context : Str) :
    Option JsError → Nat → Nat → Except AIError α × Nat × List Nat
  | lastError, 0, _ =>
    (Except.error (classifyError (lastError.getD { name := [], message := [] }) context), 0, [])
  | _, remaining + 1, attempt =>
    match op attempt with
    | Except.ok v => (Except.ok v, 1, [])
    | Except.error e =>
      let aiError := classifyError e context
      if aiError.retryable = false ∨ attempt = MAX_RETRIES - 1 then
        (Except.error aiError, 1, [])
      else
        let r := withRetryGo op context (some e) remaining (attempt + 1)
        (r.1, r.2.1 + 1, RETRY_DELAYS.getD attempt 0 :: r.2.2)

/-- withRetry from ai-error-handler.ts. -/
def withRetry {α : Type} (op : Nat → Except JsError α) (context : Str) :
    Except AIError α × Nat × List Nat :=
  withRetryGo op context none MAX_RETRIES 0

/-- C8: withRetry invokes the operation at most 3 times (and at least
once); every retry (invocation after the first) happens only because the
previous attempt failed with a retryable classified error; the backoff
delays slept are the progressive RETRY_DELAYS prefix; any error outcome
is the classified AIError of the last failed attempt, never the raw
exception; and an error classifies as retryable exactly when its code is
network, rate-limit, server (5xx) or timeout — auth (401/403) and unknown
errors are not retryable. -/
theorem withRetry_spec {α : Type} (op : Nat → Except JsError α) (context : Str) :
    (1 ≤ (withRetry op context).2.1 ∧ (withRetry op context).2.1 ≤ 3)
    ∧ (∀ k, k + 1 < (withRetry op context).2.1 →
        ∃ e, op k = Except.error e ∧ (classifyError e context).retryable = true)
    ∧ (∀ ai, (withRetry op context).1 = Except.error ai →
        ∃ e, op ((withRetry op context).2.1 - 1) = Except.error e
          ∧ ai = classifyError e context)
    ∧ (withRetry op context).2.2
        = (List.range ((withRetry op context).2.1 - 1)).map (fun i => RETRY_DELAYS.getD i 0)
    ∧ (∀ e, (classifyError e context).retryable = true ↔
        ((classifyError e context).code = "NETWORK_ERROR".toList
          ∨ (classifyError e context).code = "RATE_LIMITED".toList
          ∨ (classifyError e context).code = "SERVER_ERROR".toList
          ∨ (classifyError e context).code = "TIMEOUT_ERROR".toList)) := by
  have hclass : ∀ e, (classifyError e context).retryable = true ↔
      ((classifyError e context).code = "NETWORK_ERROR".toList
        ∨ (classifyError e context).code = "RATE_LIMITED".toList
        ∨ (classifyError e context).code = "SERVER_ERROR".toList
        ∨ (classifyError e context).code = "TIMEOUT_ERROR".toList) := by
    intro e
    unfold classifyError
    split_ifs <;> simp
  cases h0 : op 0 with
  | ok v =>
    have hr : withRetry op context = (Except.ok v, 1, []) := by
      simp [withRetry, withRetryGo, h0]
    rw [hr]
    dsimp only
    refine ⟨⟨le_refl 1, by norm_num⟩, ?_, ?_, by decide, hclass⟩
    · intro k hk
      exact absurd hk (by omega)
    · intro ai h
      simp at h
  | error e0 =>
    cases hb0 : (classifyError e0 context).retryable with
    | false =>
      have hr : withRetry op context = (Except.error (classifyError e0 context), 1, []) := by
        simp [withRetry, withRetryGo, h0, hb0, MAX_RETRIES]
      rw [hr]
      dsimp only
      refine ⟨⟨le_refl 1, by norm_num⟩, ?_, ?_, by decide, hclass⟩
      · intro k hk
        exact absurd hk (by omega)
      · intro ai h
        simp only [Except.error.injEq] at h
        exact ⟨e0, h0, h.symm⟩
    | true =>
      cases h1 : op 1 with
      | ok v =>
        have hr : withRetry op context = (Except.ok v, 2, [1000]) := by
          simp [withRetry, withRetryGo, h0, hb0, h1, MAX_RETRIES, RETRY_DELAYS]
        rw [hr]
        dsimp only
        refine ⟨⟨by norm_num, by norm_num⟩, ?_, ?_, by decide, hclass⟩
        · intro k hk
          have hk0 : k = 0 := by omega
          subst hk0
          exact ⟨e0, h0, hb0⟩
        · intro ai h
          simp at h
      | error e1 =>
        cases hb1 : (classifyError e1 context).retryable with
        | false =>
          have hr : withRetry op context
              = (Except.error (classifyError e1 context), 2, [1000]) := by
            simp [withRetry, withRetryGo, h0, hb0, h1, hb1, MAX_RETRIES, RETRY_DELAYS]
          rw [hr]
          dsimp only
          refine ⟨⟨by norm_num, by norm_num⟩, ?_, ?_, by decide, hclass⟩
          · intro k hk
            have hk0 : k = 0 := by omega
            subst hk0
            exact ⟨e0, h0, hb0⟩
          · intro ai h
            simp only [Except.error.injEq] at h
            exact ⟨e1, h1, h.symm⟩
        | true =>
          cases h2 : op 2 with
          | ok v =>
            have hr : withRetry op context = (Except.ok v, 3, [1000, 2000]) := by
              simp [withRetry, withRetryGo, h0, hb0, h1, hb1, h2, MAX_RETRIES, RETRY_DELAYS]
            rw [hr]
            dsimp only
            refine ⟨⟨by norm_num, le_refl 3⟩, ?_, ?_, by decide, hclass⟩
            · intro k hk
              have hk01 : k = 0 ∨ k = 1 := by omega
              rcases hk01 with rfl | rfl
              · exact ⟨e0, h0, hb0⟩
              · exact ⟨e1, h1, hb1⟩
            · intro ai h
              simp at h
          | error e2 =>
            have hr : withRetry op context
                = (Except.error (classifyError e2 context), 3, [1000, 2000]) := by
              simp [withRetry, withRetryGo, h0, hb0, h1, hb1, h2, MAX_RETRIES, RETRY_DELAYS]
            rw [hr]
            dsimp only
            refine ⟨⟨by norm_num, le_refl 3⟩, ?_, ?_, by decide, hclass⟩
            · intro k hk
              have hk01 : k = 0 ∨ k = 1 := by omega
              rcases hk01 with rfl | rfl
              · exact ⟨e0, h0, hb0⟩
              · exact ⟨e1, h1, hb1⟩
            · intro ai h
              simp only [Except.error.injEq] at h
              exact ⟨e2, h2, h.symm⟩

/-- A concrete operation that fails twice with a fetch (network) error,
then succeeds. -/
def opW : Nat → Except JsError Nat := fun n =>
  if n < 2 then Except.error { name := "TypeError".toList, message := "failed to fetch".toList }
  else Except.ok 7

/-- Witness for the retry policy: the fetch-failing operation is invoked
three times, succeeds, and both retries were justified by a retryable
classified error. -/
theorem withRetry_spec_witness :
    (1 ≤ (withRetry opW ("ctx".toList)).2.1 ∧ (withRetry opW ("ctx".toList)).2.1 ≤ 3)
    ∧ (∃ e, opW 0 = Except.error e
        ∧ (classifyError e ("ctx".toList)).retryable = true) :=
  ⟨(withRetry_spec opW ("ctx".toList)).1,
   (withRetry_spec opW ("ctx".toList)).2.1 0 (by decide)⟩

/-! ## Command identity (src/lib/ai-command-parser.ts: generateCommandId,
simpleHash)

JavaScript number-to-string conversion is modelled for numbers whose
value is a finite decimal (every JSON-literal amount in scope); the JS
bitwise pipeline of simpleHash — (hash << 5) − hash + charCode followed
by hash & hash — is 32-bit wrapping arithmetic on exact doubles, modelled
with explicit reduction into the signed 32-bit range. -/

/-- Decimal digits of a natural number (fuel-structural; fuel n+1 always
suffices). -/
def natToStrAux : Nat → Nat → Str → Str
  | 0, _, acc => acc
  | fuel + 1, n, acc =>
    if n < 10 then Char.ofNat (48 + n) :: acc
    else natToStrAux fuel (n / 10) (Char.ofNat (48 + n % 10) :: acc)

/-- Decimal rendering of a natural number. -/
def natToStr (n : Nat) : Str := natToStrAux (n + 1) n []

/-- Left-pad with zeros to the given width. -/
def padZeros (s : Str) (width : Nat) : Str :=
  List.replicate (width - s.length) '0' ++ s

/-- JavaScript String(n) for a nonnegative number whose value is a finite
decimal: minimal decimal digits, no trailing fraction zeros.  Values
outside that fragment (which cannot arise from JSON literals in scope)
render as the empty string. -/
def numToStrNonneg (q : ℚ) : Str :=
  match (List.range 40).find? (fun k => (q * 10 ^ k).den = 1) with
  | none => []
  | some k =>
    let m := (q * 10 ^ k).num.toNat
    if k = 0 then natToStr m
    else natToStr (m / 10 ^ k) ++ '.' :: padZeros (natToStr (m % 10 ^ k)) k

/-- JavaScript String(n) on a finite-decimal number. -/
def numToStr (q : ℚ) : Str :=
  if q < 0 then '-' :: numToStrNonneg (-q) else numToStrNonneg q

/-- Reduction of an integer into the signed 32-bit range, as performed by
every JavaScript bitwise operator. -/
def toInt32 (n : Int) : Int := (n + 2 ^ 31) % 2 ^ 32 - 2 ^ 31

/-- One step of simpleHash: hash = ((hash << 5) - hash) + charCode, then
hash = hash & hash (truncation to a 32-bit integer). -/
def simpleHashStep (hash : Int) (c : Char) : Int :=
  toInt32 (toInt32 (hash * 32) - hash + (c.toNat : Int))

/-- Base-36 digit (0-9 then a-z), as used by Number.prototype.toString(36). -/
def base36Digit (n : Nat) : Char :=
  if n < 10 then Char.ofNat (48 + n) else Char.ofNat (87 + n)

def toBase36Aux : Nat → Nat → Str → Str
  | 0, _, acc => acc
  | fuel + 1, n, acc =>
    if n < 36 then base36Digit n :: acc
    else toBase36Aux fuel (n / 36) (base36Digit (n % 36) :: acc)

/-- Number.prototype.toString(36) on a natural number. -/
def toBase36 (n : Nat) : Str := toBase36Aux (n + 1) n []

/-- simpleHash from ai-command-parser.ts: the 31x-accumulation hash over
the char codes, then Math.abs(hash).toString(36).substring(0, 8). -/
def simpleHash (str : Str) : Str :=
  let hash := str.foldl simpleHashStep 0
  (toBase36 hash.natAbs).take 8

/-- A parsed (and possibly validated/normalized) AI command: the
AITransactionCommand interface.  Fields absent from the JSON payload (or
present with a JSON type other than the interface's) are none. -/
structure AITransactionCommand where
  action : Option Str
  date : Option Str
  type : Option Str
  amount : Option ℚ
  category : Option Str
  note : Option Str
  person : Option Str
  dueDate : Option Str
  entryId : Option Str
  debtId : Option Str
  borrowId : Option Str
deriving DecidableEq

/-- The command with every field absent. -/
def emptyCommand : AITransactionCommand :=
  { action := none, date := none, type := none, amount := none, category := none,
    note := none, person := none, dueDate := none, entryId := none, debtId := none,
    borrowId := none }

/-- generateCommandId from ai-command-parser.ts: join the action and the
normalized fields (type, truthy rounded amount, category, person, note,
entry/debt/borrow ids — date and dueDate are not included) with pipes,
hash, and prefix with the action. -/
def generateCommandId (command : AITransactionCommand) : Str :=
  let parts : List Str :=
    [ command.action.getD [],
      command.type.getD [],
      (match command.amount with
       | some q => if q ≠ 0 then numToStr (FinancialMath.round q) else []
       | none => []),
      command.category.getD [],
      command.person.getD [],
      command.note.getD [],
      command.entryId.getD [],
      command.debtId.getD [],
      command.borrowId.getD [] ]
  let baseId := List.intercalate ("|".toList) parts
  command.action.getD ("undefined".toList) ++ '-' :: simpleHash baseId

/-! ## Input validator (src/lib/validation.ts)

Each validator mirrors the corresponding InputValidator method.
validateDate compares against the platform wall clock (new Date()); it is
passed into the command validator as an explicit function argument, since
real time is outside the embedding.  The result record is polymorphic in
the type of the normalized value. -/

structure ValidationResult (α : Type) where
  isValid : Bool
  error : Option Str
  value : Option α
deriving DecidableEq

/-- The regex test <[^>]*> : some '<' is followed by a later '>'. -/
def hasHtmlTag (s : Str) : Bool :=
  match s.dropWhile (fun c => !(c = '<')) with
  | [] => false
  | _ :: rest => rest.contains '>'

/-- The full-string test of the amount regex (digits, optional single
dot, at least one digit after the dot, nothing else). -/
def isNumericStr (s : Str) : Bool :=
  let ds := s.takeWhile Char.isDigit
  match s.drop ds.length with
  | [] => !ds.isEmpty
  | c :: t => c = '.' && !t.isEmpty && t.all Char.isDigit

/-- parseFloat on a string accepted by the amount regex: integer digits,
then an optional fraction. -/
def strToNum (s : Str) : ℚ :=
  let ds := s.takeWhile Char.isDigit
  let ip : Nat := ds.foldl (fun a c => a * 10 + (c.toNat - 48)) 0
  match s.drop ds.length with
  | '.' :: t =>
    let fs := t.takeWhile Char.isDigit
    let fp : Nat := fs.foldl (fun a c => a * 10 + (c.toNat - 48)) 0
    (ip : ℚ) + (fp : ℚ) / (10 : ℚ) ^ fs.length
  | _ => (ip : ℚ)

/-- InputValidator.validateAmount from validation.ts: trim, strip
currency symbols/spaces/commas (the regex class [RM\s,]), test the
numeric shape, parse, bound-check, round to 2dp. -/
def validateAmount (input : Str) : ValidationResult ℚ :=
  if jsTrim input = [] then
    { isValid := false, error := some ("Amount is required".toList), value := none }
  else
    let trimmed := jsTrim input
    let cleaned := trimmed.filter (fun c => !(c = 'R' || c = 'M' || c = ',' || isWs c))
    if !(isNumericStr cleaned) then
      { isValid := false, error := some ("Invalid amount format".toList), value := none }
    else
      let numValue := strToNum cleaned
      if !(FinancialMath.isValidAmount numValue) then
        { isValid := false, error := some ("Invalid amount".toList), value := none }
      else if numValue ≤ 0 then
        { isValid := false, error := some ("Amount must be greater than 0".toList), value := none }
      else if numValue > (99999999999 : ℚ) / 100 then
        { isValid := false, error := some ("Amount too large".toList), value := none }
      else
        { isValid := true, error := none, value := some (FinancialMath.round numValue) }

/-- InputValidator.validatePersonName from validation.ts. -/
def validatePersonName (input : Str) : ValidationResult Str :=
  if jsTrim input = [] then
    { isValid := false, error := some ("Name is required".toList), value := none }
  else
    let trimmed := jsTrim input
    if trimmed.length < 2 then
      { isValid := false, error := some ("Name must be at least 2 characters".toList), value := none }
    else if trimmed.length > 50 then
      { isValid := false, error := some ("Name must be less than 50 characters".toList), value := none }
    else if hasHtmlTag trimmed then
      { isValid := false, error := some ("Invalid characters in name".toList), value := none }
    else
      { isValid := true, error := none, value := some trimmed }

/-- InputValidator.validateNote from validation.ts (empty notes are valid
and normalize to undefined). -/
def validateNote (input : Str) : ValidationResult Str :=
  let trimmed := jsTrim input
  if trimmed.length > 200 then
    { isValid := false, error := some ("Note must be less than 200 characters".toList), value := none }
  else if hasHtmlTag trimmed then
    { isValid := false, error := some ("Invalid characters in note".toList), value := none }
  else
    { isValid := true, error := none,
      value := if trimmed = [] then none else some trimmed }

/-- InputValidator.validateCategory from validation.ts. -/
def validateCategory (category : Str) (validCategories : List Str) : ValidationResult Str :=
  if jsTrim category = [] then
    { isValid := false, error := some ("Category is required".toList), value := none }
  else if !(validCategories.contains category) then
    { isValid := false, error := some ("Invalid category selected".toList), value := none }
  else
    { isValid := true, error := none, value := some category }

/-! ## Command validation (src/lib/ai-command-parser.ts) -/

structure AICommandResult where
  success : Bool
  error : Option Str
  command : Option AITransactionCommand
  commandId : Option Str
deriving DecidableEq

def VALID_ACTIONS : List Str :=
  [ "add_transaction".toList, "edit_transaction".toList, "delete_transaction".toList,
    "add_debt".toList, "mark_debt_paid".toList, "delete_debt".toList,
    "add_borrow".toList, "mark_borrow_paid".toList, "delete_borrow".toList ]

/-- Known category labels; an unknown category only triggers a console
warning in validateTransactionAdd, never a rejection. -/
def EXPENSE_CATEGORIES : List Str :=
  [ "Food".toList, "Transport".toList, "Bills".toList, "Groceries".toList,
    "Health".toList, "Entertainment".toList, "Shopping".toList, "Other".toList ]

def INCOME_CATEGORIES : List Str :=
  [ "Salary".toList, "Business".toList, "Bonus".toList, "Gift".toList,
    "Interest".toList, "Refund".toList, "Other".toList ]

/-- validateTransactionAdd from ai-command-parser.ts.  The date validator
is a function argument (platform clock). -/
def validateTransactionAdd (vd : Str → ValidationResult Str)
    (command : AITransactionCommand) : AICommandResult :=
  let typeErrors : List Str :=
    match command.type with
    | some t =>
      if t = "income".toList ∨ t = "expense".toList then []
      else [("Invalid transaction type. Must be \"income\" or \"expense\"".toList)]
    | none => [("Invalid transaction type. Must be \"income\" or \"expense\"".toList)]
  let amountStep : List Str × Option ℚ :=
    match command.amount with
    | none => ([("Amount is required".toList)], command.amount)
    | some q =>
      let av := validateAmount (numToStr q)
      if !av.isValid then
        ([av.error.getD ("Invalid amount format".toList)], command.amount)
      else
        let amount := av.value.getD 0
        let e1 := if amount ≤ 0 then [("Amount must be greater than 0".toList)] else []
        let e2 :=
          if amount > 1000000 then
            [("Amount seems unreasonably large (max: RM 1,000,000)".toList)]
          else []
        (e1 ++ e2, some (FinancialMath.round amount))
  let categoryErrors : List Str :=
    match command.category with
    | none => [("Category is required".toList)]
    | some c => if jsTrim c = [] then [("Category is required".toList)] else []
  let noteErrors : List Str :=
    match command.note with
    | some n =>
      if n ≠ [] then
        (let nv := validateNote n
         if !nv.isValid then [nv.error.getD ("Invalid note format".toList)] else [])
      else []
    | none => []
  let dateErrors : List Str :=
    match command.date with
    | some d =>
      if d ≠ [] then
        (let dv2 := vd d
         if !dv2.isValid then [dv2.error.getD ("Invalid date format".toList)] else [])
      else []
    | none => []
  let errors := typeErrors ++ amountStep.1 ++ categoryErrors ++ noteErrors ++ dateErrors
  if errors ≠ [] then
    { success := false, error := some (List.intercalate (", ".toList) errors),
      command := none, commandId := none }
  else
    { success := true, error := none,
      command := some { command with amount := amountStep.2 }, commandId := none }

/-- validateTransactionEdit from ai-command-parser.ts. -/
def validateTransactionEdit (command : AITransactionCommand) : AICommandResult :=
  if command.entryId.getD [] = [] then
    { success := false, error := some ("Entry ID is required for edit operations".toList),
      command := none, commandId := none }
  else
    match command.amount with
    | some q =>
      let av := validateAmount (numToStr q)
      if !av.isValid then
        { success := false, error := some (av.error.getD ("Invalid amount".toList)),
          command := none, commandId := none }
      else
        { success := true, error := none, command := some command, commandId := none }
    | none =>
      { success := true, error := none, command := some command, commandId := none }

/-- validateTransactionDelete from ai-command-parser.ts. -/
def validateTransactionDelete (command : AITransactionCommand) : AICommandResult :=
  if command.entryId.getD [] = [] then
    { success := false, error := some ("Entry ID is required for delete operations".toList),
      command := none, commandId := none }
  else
    { success := true, error := none, command := some command, commandId := none }

/-- validateDebtAdd from ai-command-parser.ts (also used for borrows). -/
def validateDebtAdd (command : AITransactionCommand) : AICommandResult :=
  let personStep : List Str × Option Str :=
    match command.person with
    | none => ([("Person name is required for debt entries".toList)], command.person)
    | some p =>
      if jsTrim p = [] then
        ([("Person name is required for debt entries".toList)], command.person)
      else
        let pv := validatePersonName (jsTrim p)
        if !pv.isValid then
          ([pv.error.getD ("Invalid person name format".toList)], command.person)
        else ([], pv.value)
  let amountStep : List Str × Option ℚ :=
    match command.amount with
    | none => ([("Amount is required for debt entries".toList)], command.amount)
    | some q =>
      let av := validateAmount (numToStr q)
      if !av.isValid then
        ([av.error.getD ("Invalid amount format".toList)], command.amount)
      else
        let amount := av.value.getD 0
        let e1 := if amount ≤ 0 then [("Debt amount must be greater than 0".toList)] else []
        let e2 :=
          if amount > 100000 then
            [("Debt amount seems unreasonably large (max: RM 100,000)".toList)]
          else []
        (e1 ++ e2, some (FinancialMath.round amount))
  let noteErrors : List Str :=
    match command.note with
    | some n =>
      if n ≠ [] then
        (let nv := validateNote n
         if !nv.isValid then [nv.error.getD ("Invalid note format".toList)] else [])
      else []
    | none => []
  let errors := personStep.1 ++ amountStep.1 ++ noteErrors
  if errors ≠ [] then
    { success := false, error := some (List.intercalate (", ".toList) errors),
      command := none, commandId := none }
  else
    { success := true, error := none,
      command := some { command with person := personStep.2, amount := amountStep.2 },
      commandId := none }

/-- validateBorrowAdd from ai-command-parser.ts: debt validation plus the
optional due date. -/
def validateBorrowAdd (vd : Str → ValidationResult Str)
    (command : AITransactionCommand) : AICommandResult :=
  let result := validateDebtAdd command
  if result.success then
    match command.dueDate with
    | some dd =>
      if dd ≠ [] then
        let dv2 := vd dd
        if !dv2.isValid then
          { success := false, error := some (dv2.error.getD ("Invalid due date".toList)),
            command := none, commandId := none }
        else result
      else result
    | none => result
  else result

/-- validateDebtOperation from ai-command-parser.ts. -/
def validateDebtOperation (command : AITransactionCommand) : AICommandResult :=
  if command.debtId.getD [] = [] then
    { success := false, error := some ("Debt ID is required for debt operations".toList),
      command := none, commandId := none }
  else
    { success := true, error := none, command := some command, commandId := none }

/-- validateBorrowOperation from ai-command-parser.ts. -/
def validateBorrowOperation (command : AITransactionCommand) : AICommandResult :=
  if command.borrowId.getD [] = [] then
    { success := false, error := some ("Borrow ID is required for borrow operations".toList),
      command := none, commandId := none }
  else
    { success := true, error := none, command := some command, commandId := none }

/-- validateCommand from ai-command-parser.ts: reject unrecognized
actions with the closed-set message, then dispatch to the per-action
validator. -/
def validateCommand (vd : Str → ValidationResult Str)
    (command : AITransactionCommand) : AICommandResult :=
  let invalid : AICommandResult :=
    { success := false,
      error := some ("Invalid action: ".toList ++ command.action.getD ("undefined".toList)
        ++ ". Must be one of: ".toList ++ List.intercalate (", ".toList) VALID_ACTIONS),
      command := none, commandId := none }
  match command.action with
  | none => invalid
  | some a =>
    if !(VALID_ACTIONS.contains a) ∨ a = [] then invalid
    else if a = "add_transaction".toList then validateTransactionAdd vd command
    else if a = "edit_transaction".toList then validateTransactionEdit command
    else if a = "delete_transaction".toList then validateTransactionDelete command
    else if a = "add_debt".toList then validateDebtAdd command
    else if a = "add_borrow".toList then validateBorrowAdd vd command
    else if a = "mark_debt_paid".toList ∨ a = "delete_debt".toList then
      validateDebtOperation command
    else if a = "mark_borrow_paid".toList ∨ a = "delete_borrow".toList then
      validateBorrowOperation command
    else
      { success := false, error := some ("Unknown action".toList),
        command := none, commandId := none }

/-! ## JSON.parse (platform builtin, modelled)

Strict JSON parsing of the fragment the command payloads use: objects,
arrays, strings with the single-character escapes, integer/fraction
numbers, true/false/null.  Exponent and unicode-escape notation are
outside the modelled fragment.  The parser is fuel-structural (fuel
length+1 always suffices) so that every concrete run kernel-reduces, and
it rejects trailing non-whitespace, as JSON.parse does. -/

inductive Json where
  | str (s : Str)
  | num (q : ℚ)
  | bool (b : Bool)
  | null
  | arr (elems : List Json)
  | obj (fields : List (Str × Json))

/-- JSON insignificant whitespace. -/
def jsonWs (c : Char) : Bool :=
  c = ' ' || c = Char.ofNat 9 || c = Char.ofNat 10 || c = Char.ofNat 13

def skipWsJ (s : Str) : Str := s.dropWhile jsonWs

/-- The single-character string escapes. -/
def escChar (c : Char) : Option Char :=
  if c = '"' then some '"'
  else if c = '\\' then some '\\'
  else if c = '/' then some '/'
  else if c = 'n' then some (Char.ofNat 10)
  else if c = 't' then some (Char.ofNat 9)
  else if c = 'r' then some (Char.ofNat 13)
  else if c = 'b' then some (Char.ofNat 8)
  else if c = 'f' then some (Char.ofNat 12)
  else none

/-- Parse the remainder of a string literal (after the opening quote). -/
def parseStringLit : Str → Option (Str × Str)
  | [] => none
  | c :: rest =>
    if c = '"' then some ([], rest)
    else if c = '\\' then
      match rest with
      | [] => none
      | e :: rest2 =>
        match escChar e with
        | some ec => (parseStringLit rest2).map (fun p => (ec :: p.1, p.2))
        | none => none
    else (parseStringLit rest).map (fun p => (c :: p.1, p.2))

/-- Parse a number literal: optional minus, digits, optional fraction. -/
def parseNumberLit (s : Str) : Option (ℚ × Str) :=
  let core := fun (s1 : Str) (neg : Bool) =>
    let ds := s1.takeWhile Char.isDigit
    if ds = [] then none
    else
      let ip : Nat := ds.foldl (fun a c => a * 10 + (c.toNat - 48)) 0
      match s1.drop ds.length with
      | '.' :: t =>
        let fs := t.takeWhile Char.isDigit
        if fs = [] then none
        else
          let fp : Nat := fs.foldl (fun a c => a * 10 + (c.toNat - 48)) 0
          let q : ℚ := (ip : ℚ) + (fp : ℚ) / (10 : ℚ) ^ fs.length
          some ((if neg then -q else q), t.drop fs.length)
      | rest => some ((if neg then -(ip : ℚ) else (ip : ℚ)), rest)
  match s with
  | '-' :: t => core t true
  | _ => core s false

/-- Parsing mode: a value, the members of an object (just after the
opening brace, or just after a comma), or the elements of an array. -/
inductive JMode where
  | value
  | membersFirst
  | membersNext
  | elementsFirst
  | elementsNext

/-- Intermediate parse result per mode. -/
inductive JRes where
  | v (j : Json)
  | ms (l : List (Str × Json))
  | es (l : List Json)

/-- The recursive JSON parser, structural on its fuel. -/
def parseJsonCore : Nat → JMode → Str → Option (JRes × Str)
  | 0, _, _ => none
  | fuel + 1, JMode.value, s =>
    match skipWsJ s with
    | [] => none
    | c :: rest =>
      if c = '"' then
        match parseStringLit rest with
        | some (str, r) => some (JRes.v (Json.str str), r)
        | none => none
      else if c = obr then
        match parseJsonCore fuel JMode.membersFirst rest with
        | some (JRes.ms l, r) => some (JRes.v (Json.obj l), r)
        | _ => none
      else if c = '[' then
        match parseJsonCore fuel JMode.elementsFirst rest with
        | some (JRes.es l, r) => some (JRes.v (Json.arr l), r)
        | _ => none
      else if ("true".toList).isPrefixOf (c :: rest) then
        some (JRes.v (Json.bool true), (c :: rest).drop 4)
      else if ("false".toList).isPrefixOf (c :: rest) then
        some (JRes.v (Json.bool false), (c :: rest).drop 5)
      else if ("null".toList).isPrefixOf (c :: rest) then
        some (JRes.v Json.null, (c :: rest).drop 4)
      else
        match parseNumberLit (c :: rest) with
        | some (q, r) => some (JRes.v (Json.num q), r)
        | none => none
  | fuel + 1, JMode.membersFirst, s =>
    match skipWsJ s with
    | [] => none
    | c :: rest =>
      if c = cbr then some (JRes.ms [], rest)
      else if c = '"' then parseJsonCore fuel JMode.membersNext s
      else none
  | fuel + 1, JMode.membersNext, s =>
    match skipWsJ s with
    | [] => none
    | c :: rest =>
      if c = '"' then
        match parseStringLit rest with
        | some (key, r1) =>
          (match skipWsJ r1 with
           | c1 :: r2 =>
             if c1 = ':' then
               match parseJsonCore fuel JMode.value r2 with
               | some (JRes.v j, r3) =>
                 (match skipWsJ r3 with
                  | c2 :: r4 =>
                    if c2 = ',' then
                      match parseJsonCore fuel JMode.membersNext r4 with
                      | some (JRes.ms l, r5) => some (JRes.ms ((key, j) :: l), r5)
                      | _ => none
                    else if c2 = cbr then some (JRes.ms [(key, j)], r4)
                    else none
                  | [] => none)
               | _ => none
             else none
           | [] => none)
        | none => none
      else none
  | fuel + 1, JMode.elementsFirst, s =>
    match skipWsJ s with
    | [] => none
    | c :: rest =>
      if c = ']' then some (JRes.es [], rest)
      else parseJsonCore fuel JMode.elementsNext s
  | fuel + 1, JMode.elementsNext, s =>
    match parseJsonCore fuel JMode.value s with
    | some (JRes.v j, r1) =>
      (match skipWsJ r1 with
       | c :: r2 =>
         if c = ',' then
           match parseJsonCore fuel JMode.elementsNext r2 with
           | some (JRes.es l, r3) => some (JRes.es (j :: l), r3)
           | _ => none
         else if c = ']' then some (JRes.es [j], r2)
         else none
       | [] => none)
    | _ => none

/-- JSON.parse: one value covering the whole input (trailing whitespace
allowed, anything else rejected). -/
def jsonParse (s : Str) : Option Json :=
  match parseJsonCore (s.length + 1) JMode.value s with
  | some (JRes.v j, rest) => if skipWsJ rest = [] then some j else none
  | _ => none

/-! ## Marker scan and parseCommand (src/lib/ai-command-parser.ts)

The source matches the global regex
__apply__ backslash-s* ( brace [^brace]* (close [^close]*)* close )
with JavaScript exec semantics: the leftmost match anchored at a marker,
whose capture group — by greedy matching with backtracking — runs from
the opening brace through the LAST closing brace of the remaining text;
exec then resumes after the match.  The scan below implements exactly
those semantics (it is not brace-depth counting). -/

/-- Read a string field of the parsed payload, as the unchecked
`as AITransactionCommand` cast does; a missing field, or one whose JSON
type is not a string, reads as absent. -/
def getStrField (fields : List (Str × Json)) (k : Str) : Option Str :=
  match fields.lookup k with
  | some (Json.str s) => some s
  | _ => none

/-- Read a numeric field of the parsed payload. -/
def getNumField (fields : List (Str × Json)) (k : Str) : Option ℚ :=
  match fields.lookup k with
  | some (Json.num q) => some q
  | _ => none

/-- The unchecked cast of the parsed JSON value to the
AITransactionCommand interface: property reads on a non-object (or on
absent/mistyped fields) yield undefined. -/
def toCommand (j : Json) : AITransactionCommand :=
  match j with
  | Json.obj fields =>
    { action := getStrField fields ("action".toList),
      date := getStrField fields ("date".toList),
      type := getStrField fields ("type".toList),
      amount := getNumField fields ("amount".toList),
      category := getStrField fields ("category".toList),
      note := getStrField fields ("note".toList),
      person := getStrField fields ("person".toList),
      dueDate := getStrField fields ("dueDate".toList),
      entryId := getStrField fields ("entryId".toList),
      debtId := getStrField fields ("debtId".toList),
      borrowId := getStrField fields ("borrowId".toList) }
  | _ => emptyCommand

/-- JSON.parse followed by the interface cast. -/
def jsonParseCmd (s : Str) : Option AITransactionCommand :=
  (jsonParse s).map toCommand

/-- Split a string at its LAST closing brace: (before, after), neither
containing that brace.  none when no closing brace exists. -/
def splitAtLastBrace : Str → Option (Str × Str)
  | [] => none
  | c :: t =>
    match splitAtLastBrace t with
    | some (a, b) => some (c :: a, b)
    | none => if c = cbr then some ([], t) else none

/-- The regex match attempt anchored at the current position: the marker
literal, whitespace, an opening brace, then (greedily) everything through
the last closing brace of the rest of the text.  Returns the capture and
the remainder after the match. -/
def matchApplyAt (s : Str) : Option (Str × Str) :=
  if ("__apply__".toList).isPrefixOf s then
    let body := (s.drop 9).dropWhile isWs
    match body with
    | c :: b =>
      if c = obr then
        match splitAtLastBrace b with
        | some (inside, rest) => some (obr :: (inside ++ [cbr]), rest)
        | none => none
      else none
    | [] => none
  else none

/-- The exec loop: advance position by position; at each successful match
emit the capture and resume after it (fuel-structural; fuel length+1
always suffices since every step consumes at least one character). -/
def scanApplyAux : Nat → Str → List Str
  | 0, _ => []
  | fuel + 1, s =>
    match s with
    | [] => []
    | c :: t =>
      match matchApplyAt (c :: t) with
      | some (cap, rest) => cap :: scanApplyAux fuel rest
      | none => scanApplyAux fuel t

def scanApply (s : Str) : List Str := scanApplyAux (s.length + 1) s

/-- The body of the parseCommand loop for one captured candidate: strict
JSON parse (parse failure yields a failed result carrying the
engine-specific SyntaxError message, abstracted here), schema validation,
identity computation, duplicate check against the session-scoped
processed set and the caller's existing set.  Returns the result and the
updated processed set. -/
def processCandidate (vd : Str → ValidationResult Str) (existing : List Str)
    (processed : List Str) (jsonString : Str) : AICommandResult × List Str :=
  match jsonParseCmd jsonString with
  | none =>
    ({ success := false,
       error := some ("Failed to parse AI command: SyntaxError".toList),
       command := none, commandId := none }, processed)
  | some command =>
    let validation := validateCommand vd command
    if validation.success then
      match validation.command with
      | some cmd =>
        let commandId := generateCommandId cmd
        if processed.contains commandId || existing.contains commandId then
          ({ success := false,
             error := some ("Duplicate command detected and skipped: ".toList
               ++ cmd.action.getD ("undefined".toList)),
             command := none, commandId := some commandId }, processed)
        else
          ({ validation with commandId := some commandId }, commandId :: processed)
      | none => (validation, processed)
    else (validation, processed)

/-- The fold of processCandidate over the captured candidates, threading
the session-scoped processed set. -/
def parseCommandAux (vd : Str → ValidationResult Str) (existing : List Str) :
    List Str → List Str → List AICommandResult × List Str
  | [], processed => ([], processed)
  | cand :: cands, processed =>
    let r := processCandidate vd existing processed cand
    let rs := parseCommandAux vd existing cands r.2
    (r.1 :: rs.1, rs.2)

/-- parseCommand from ai-command-parser.ts: scan the assembled text for
command markers and process each candidate in order.  The session-scoped
processed set (the class-static processedCommands) is threaded
explicitly; the result pairs the command results with the updated set. -/
def parseCommand (vd : Str → ValidationResult Str) (responseText : Str)
    (existing : List Str) (processed : List Str) :
    List AICommandResult × List Str :=
  parseCommandAux vd existing (scanApply responseText) processed

/-! ## Claim theorems about the parser -/

theorem splitAtLastBrace_none {s : Str} (h : cbr ∉ s) : splitAtLastBrace s = none := by
  induction s with
  | nil => rfl
  | cons c t ih =>
    have hct : cbr ∉ t := fun hm => h (List.mem_cons_of_mem c hm)
    have hcc : c ≠ cbr := fun hc => h (hc ▸ List.mem_cons_self c t)
    simp only [splitAtLastBrace, ih hct]
    simp [fun he => hcc he]

theorem splitAtLastBrace_append (body rest : Str) (h : cbr ∉ rest) :
    splitAtLastBrace (body ++ cbr :: rest) = some (body, rest) := by
  induction body with
  | nil =>
    simp only [List.nil_append, splitAtLastBrace, splitAtLastBrace_none h]
    simp
  | cons c t ih =>
    simp only [List.cons_append, splitAtLastBrace, List.append_eq, ih]

theorem matchApplyAt_no_brace {s : Str} (h : cbr ∉ s) : matchApplyAt s = none := by
  unfold matchApplyAt
  split
  · have hsub : ((s.drop 9).dropWhile isWs).Sublist s :=
      ((s.drop 9).dropWhile_sublist isWs).trans (List.drop_sublist 9 s)
    cases hbody : (s.drop 9).dropWhile isWs with
    | nil => rfl
    | cons c b =>
      have hb : cbr ∉ b := by
        intro hm
        exact h (hsub.subset (hbody ▸ List.mem_cons_of_mem c hm))
      simp only [splitAtLastBrace_none hb]
      split <;> rfl
  · rfl

theorem scanApplyAux_no_brace (fuel : Nat) :
    ∀ {s : Str}, cbr ∉ s → scanApplyAux fuel s = [] := by
  induction fuel with
  | zero => intro s _; rfl
  | succ n ih =>
    intro s h
    cases s with
    | nil => rfl
    | cons c t =>
      have ht : cbr ∉ t := fun hm => h (List.mem_cons_of_mem c hm)
      simp only [scanApplyAux, matchApplyAt_no_brace h, ih ht]

theorem matchApplyAt_marker (body rest : Str) (hrest : cbr ∉ rest) :
    matchApplyAt ("__apply__".toList ++ ' ' :: obr :: (body ++ cbr :: rest))
      = some (obr :: (body ++ [cbr]), rest) := by
  unfold matchApplyAt
  have hpre : (("__apply__".toList).isPrefixOf
      ("__apply__".toList ++ ' ' :: obr :: (body ++ cbr :: rest))) = true := by
    simp [List.isPrefixOf_iff_prefix, List.prefix_append]
  rw [if_pos hpre]
  have hdrop : ("__apply__".toList ++ ' ' :: obr :: (body ++ cbr :: rest)).drop 9
      = ' ' :: obr :: (body ++ cbr :: rest) := by
    have : ("__apply__".toList).length = 9 := by decide
    rw [← this, List.drop_left]
  rw [hdrop]
  have hws : (' ' :: obr :: (body ++ cbr :: rest)).dropWhile isWs
      = obr :: (body ++ cbr :: rest) := by
    rw [List.dropWhile_cons_of_pos (by decide), List.dropWhile_cons_of_neg (by decide)]
  rw [hws]
  simp [splitAtLastBrace_append body rest hrest]

theorem scanApplyAux_cons_of_match {fuel : Nat} {s cap rest : Str}
    (h : matchApplyAt s = some (cap, rest)) :
    scanApplyAux (fuel + 1) s = cap :: scanApplyAux fuel rest := by
  cases s with
  | nil =>
    rw [show matchApplyAt ([] : Str) = none from by with_unfolding_all rfl] at h
    exact Option.noConfusion h
  | cons c t =>
    simp only [scanApplyAux, h]

/-- C4 (amended): the regex scan produces at most one capture per parse:
anchored at the first marker, the capture runs from the opening brace to
the LAST closing brace of the text (greedy matching, not brace-depth
counting).  When the text holds a single marker whose object's final
brace is the last brace of the text, exactly one CommandResult is
produced for it — braces inside the object (for example inside a note
string) stay within the single capture — and that result is exactly the
processing of the captured object. -/
theorem parseCommand_single_marker (vd : Str → ValidationResult Str)
    (existing processed : List Str) (body rest : Str) (hrest : cbr ∉ rest) :
    scanApply ("__apply__".toList ++ ' ' :: obr :: (body ++ cbr :: rest))
      = [obr :: (body ++ [cbr])]
    ∧ (parseCommand vd ("__apply__".toList ++ ' ' :: obr :: (body ++ cbr :: rest))
        existing processed).1
      = [(processCandidate vd existing processed (obr :: (body ++ [cbr]))).1] := by
  have hscan : scanApply ("__apply__".toList ++ ' ' :: obr :: (body ++ cbr :: rest))
      = [obr :: (body ++ [cbr])] := by
    unfold scanApply
    rw [scanApplyAux_cons_of_match (matchApplyAt_marker body rest hrest),
      scanApplyAux_no_brace _ hrest]
  refine ⟨hscan, ?_⟩
  unfold parseCommand
  rw [hscan]
  rfl

set_option maxRecDepth 40000

/-- A date validator that accepts everything (the date-free fixtures
below never invoke it). -/
def vdT : Str → ValidationResult Str :=
  fun s => { isValid := true, error := none, value := some s }

/-- The payload object for a mark_debt_paid command on debt d7. -/
def objMark : Str :=
  obr :: ("\"action\":\"mark_debt_paid\",\"debtId\":\"d7\"".toList) ++ [cbr]

/-- A streamed text holding one complete command marker. -/
def tMark : Str := "__apply__ ".toList ++ objMark

/-- The mark_debt_paid command as parsed and validated from objMark. -/
def cmdMark : AITransactionCommand :=
  { emptyCommand with action := some ("mark_debt_paid".toList), debtId := some ("d7".toList) }

/-- C3 counterexample: re-parsing the same assembled text within one
session marks the repeated command as a duplicate, but that result is
represented exactly like a failed command: success = false and a
command-error string — contradicting "not an error". -/
theorem duplicate_result_is_marked_failed :
    ((parseCommand vdT tMark [] []).1.map AICommandResult.success = [true])
    ∧ ((parseCommand vdT tMark [] ((parseCommand vdT tMark [] []).2)).1.map
        AICommandResult.success = [false])
    ∧ ((parseCommand vdT tMark [] ((parseCommand vdT tMark [] []).2)).1.map
        AICommandResult.error
        = [some ("Duplicate command detected and skipped: mark_debt_paid".toList)]) := by
  with_unfolding_all decide

/-- C3 (amended): a parsed, validated command whose identity is already
in the session-scoped processed set or the existing-identity set is
skipped — the processed set is unchanged and no command is carried in the
result — but the result is marked success = false with a "Duplicate
command detected and skipped" error message; it differs from a parse or
validation failure only in carrying the non-null commandId. -/
theorem duplicate_skipped_not_applied (vd : Str → ValidationResult Str)
    (existing processed : List Str) (cand : Str) (cmd cmd' : AITransactionCommand)
    (hparse : jsonParseCmd cand = some cmd)
    (hval : validateCommand vd cmd
      = { success := true, error := none, command := some cmd', commandId := none })
    (hdup : (processed.contains (generateCommandId cmd')
        || existing.contains (generateCommandId cmd')) = true) :
    processCandidate vd existing processed cand
      = ({ success := false,
           error := some ("Duplicate command detected and skipped: ".toList
             ++ cmd'.action.getD ("undefined".toList)),
           command := none, commandId := some (generateCommandId cmd') }, processed) := by
  unfold processCandidate
  rw [hparse]
  simp only [hval, hdup]
  rfl

/-- Witness for the duplicate shape: the mark_debt_paid payload whose
identity is already processed yields the duplicate-error result and
leaves the processed set unchanged. -/
theorem duplicate_skipped_not_applied_witness :
    processCandidate vdT [] [generateCommandId cmdMark] objMark
      = ({ success := false,
           error := some ("Duplicate command detected and skipped: mark_debt_paid".toList),
           command := none, commandId := some (generateCommandId cmdMark) },
         [generateCommandId cmdMark]) :=
  (duplicate_skipped_not_applied vdT [] [generateCommandId cmdMark] objMark cmdMark cmdMark
      (by with_unfolding_all decide) (by with_unfolding_all decide)
      (by with_unfolding_all decide)).trans (by with_unfolding_all decide)

/-- The payload object for a second mark_debt_paid command on debt d8. -/
def objMark2 : Str :=
  obr :: ("\"action\":\"mark_debt_paid\",\"debtId\":\"d8\"".toList) ++ [cbr]

/-- A streamed text holding TWO complete command markers. -/
def tTwo : Str := tMark ++ " ".toList ++ "__apply__ ".toList ++ objMark2

/-- C4 counterexample: with two markers, each followed by its own
balanced JSON object, the greedy regex produces a single capture running
to the last closing brace of the whole text, so the parser returns ONE
failed CommandResult instead of one CommandResult per marker. -/
theorem two_markers_one_failed_result :
    ((parseCommand vdT tTwo [] []).1.length = 1)
    ∧ ((parseCommand vdT tTwo [] []).1.map AICommandResult.success = [false])
    ∧ ((parseCommand vdT tTwo [] []).1.map AICommandResult.commandId = [none]) := by
  with_unfolding_all decide

/-- Body of a payload whose note field contains a closing brace. -/
def bodyNote : Str :=
  "\"action\":\"add_debt\",\"person\":\"Jo\",\"amount\":5,\"note\":\"x".toList
    ++ cbr :: ("y\"".toList)

/-- Text with one marker whose object carries a brace inside its note. -/
def tNote : Str := "__apply__".toList ++ ' ' :: obr :: (bodyNote ++ cbr :: [])

/-- Witness for the single-marker capture: the brace inside the note
stays within the single capture and the one result is successful. -/
theorem parseCommand_single_marker_witness :
    (scanApply tNote = [obr :: (bodyNote ++ [cbr])])
    ∧ ((parseCommand vdT tNote [] []).1.map AICommandResult.success = [true]) := by
  have h := parseCommand_single_marker vdT [] [] bodyNote [] (by decide)
  refine ⟨h.1, ?_⟩
  rw [show (parseCommand vdT tNote [] []).1
    = [(processCandidate vdT [] [] (obr :: (bodyNote ++ [cbr]))).1] from h.2]
  with_unfolding_all decide

/-- An add_debt command for Jo, amount 5, note "Aa". -/
def cA : AITransactionCommand :=
  { emptyCommand with
    action := some ("add_debt".toList)
    person := some ("Jo".toList)
    amount := some 5
    note := some ("Aa".toList) }

/-- The same command except its note is "BB". -/
def cB : AITransactionCommand :=
  { emptyCommand with
    action := some ("add_debt".toList)
    person := some ("Jo".toList)
    amount := some 5
    note := some ("BB".toList) }

/-- C2 counterexample: cA and cB both pass validation unchanged, differ
in their note field — a different logical operation — yet the 32-bit
accumulation hash collides (the char-pair Aa and BB hash identically), so
their identities are equal and the second command would be skipped as a
"duplicate" of the first. -/
theorem generateCommandId_collision :
    ((validateCommand vdT cA).success = true)
    ∧ ((validateCommand vdT cA).command = some cA)
    ∧ ((validateCommand vdT cB).success = true)
    ∧ ((validateCommand vdT cB).command = some cB)
    ∧ (generateCommandId cA = generateCommandId cB)
    ∧ (cA ≠ cB) := by
  with_unfolding_all decide

theorem no_dash_append_inj : ∀ (a₁ : Str) {a₂ t₁ t₂ : Str}, '-' ∉ a₁ → '-' ∉ a₂ →
    a₁ ++ '-' :: t₁ = a₂ ++ '-' :: t₂ → a₁ = a₂ := by
  intro a₁
  induction a₁ with
  | nil =>
    intro a₂ t₁ t₂ _ h2 h
    cases a₂ with
    | nil => rfl
    | cons d a₂' =>
      exfalso
      simp only [List.nil_append, List.cons_append, List.cons.injEq] at h
      exact h2 (h.1 ▸ List.mem_cons_self d a₂')
  | cons c a₁' ih =>
    intro a₂ t₁ t₂ h1 h2 h
    cases a₂ with
    | nil =>
      exfalso
      simp only [List.cons_append, List.nil_append, List.cons.injEq] at h
      exact h1 (h.1 ▸ List.mem_cons_self c a₁')
    | cons d a₂' =>
      simp only [List.cons_append, List.cons.injEq] at h
      have h1' : '-' ∉ a₁' := fun hm => h1 (List.mem_cons_of_mem c hm)
      have h2' : '-' ∉ a₂' := fun hm => h2 (List.mem_cons_of_mem d hm)
      rw [h.1, ih h1' h2' h.2]

/-- C2 (amended): the identity is a deterministic function of the nine
fields it reads — action, type, rounded amount, category, person, note,
entryId, debtId, borrowId; date and dueDate are not part of it — and two
equal identities always carry the same action (the action prefix is
dash-free and the hash suffix is delimited by a dash).  Equal identities
do not imply equal field values: the excluded date/dueDate fields and
32-bit hash collisions both allow distinct logical operations to share an
identity. -/
theorem generateCommandId_deterministic :
    (∀ c₁ c₂ : AITransactionCommand,
        c₁.action = c₂.action → c₁.type = c₂.type → c₁.amount = c₂.amount →
        c₁.category = c₂.category → c₁.person = c₂.person → c₁.note = c₂.note →
        c₁.entryId = c₂.entryId → c₁.debtId = c₂.debtId → c₁.borrowId = c₂.borrowId →
        generateCommandId c₁ = generateCommandId c₂)
    ∧ (∀ (c₁ c₂ : AITransactionCommand) (a₁ a₂ : Str),
        c₁.action = some a₁ → c₂.action = some a₂ → '-' ∉ a₁ → '-' ∉ a₂ →
        generateCommandId c₁ = generateCommandId c₂ → a₁ = a₂) := by
  constructor
  · intro c₁ c₂ h1 h2 h3 h4 h5 h6 h7 h8 h9
    unfold generateCommandId
    rw [h1, h2, h3, h4, h5, h6, h7, h8, h9]
  · intro c₁ c₂ a₁ a₂ ha1 ha2 hd1 hd2 hid
    unfold generateCommandId at hid
    rw [ha1, ha2] at hid
    simp only [Option.getD_some] at hid
    exact no_dash_append_inj a₁ hd1 hd2 hid

/-- An add_transaction command dated 2024-01-01. -/
def cD1 : AITransactionCommand :=
  { emptyCommand with
    action := some ("add_transaction".toList)
    type := some ("expense".toList)
    amount := some 25
    category := some ("Food".toList)
    date := some ("2024-01-01".toList) }

/-- The same command dated 2024-02-02. -/
def cD2 : AITransactionCommand :=
  { emptyCommand with
    action := some ("add_transaction".toList)
    type := some ("expense".toList)
    amount := some 25
    category := some ("Food".toList)
    date := some ("2024-02-02".toList) }

/-- Witness: two commands differing only in their (excluded) date field
share one identity, and equal identities recover the action. -/
theorem generateCommandId_deterministic_witness :
    (generateCommandId cD1 = generateCommandId cD2)
    ∧ ("add_debt".toList = "add_debt".toList) :=
  ⟨generateCommandId_deterministic.1 cD1 cD2 rfl rfl rfl rfl rfl rfl rfl rfl rfl,
   generateCommandId_deterministic.2 cA cA ("add_debt".toList) ("add_debt".toList)
     rfl rfl (by decide) (by decide) rfl⟩

/-! ## Command executor (src/components/AdvisorChat.tsx, send)

The executor's per-result switch is modelled as a function from the
validated command and the store to either (new store, confirmation
message) or a thrown error message.  Only successful, non-duplicate
results reach the switch; "today" (getCurrentDateString) and the platform
id/timestamp are explicit arguments.  The switch in AdvisorChat.tsx
handles add_transaction, add_debt and add_borrow and throws
"Unknown action: ..." from its default branch for every other action. -/

/-- Decimal.toFixed(2) (via FinancialMath.toFixed with the default
places): always two fraction digits. -/
def FinancialMath.toFixed (q : ℚ) : Str :=
  let r := FinancialMath.round q
  let c : Int := ⌊r * 100⌋
  if c < 0 then
    '-' :: (natToStr (c.natAbs / 100) ++ '.' :: padZeros (natToStr (c.natAbs % 100)) 2)
  else
    natToStr (c.toNat / 100) ++ '.' :: padZeros (natToStr (c.toNat % 100)) 2

/-- Whether an Except value is a success. -/
def isOkE {ε α : Type} : Except ε α → Bool
  | Except.ok _ => true
  | Except.error _ => false

/-- The thrown error of an Except value, when present. -/
def errMsgE {ε α : Type} : Except ε α → Option ε
  | Except.ok _ => none
  | Except.error e => some e

/-- The execution switch of AdvisorChat.tsx's send loop, applied to one
successful, non-duplicate command.  The confirmation message is the
headline of the chat message the source appends (the source message also
repeats the category, date or due date). -/
def executeCommand (newId now dateKey : Str) (command : AITransactionCommand)
    (st : Store) : Except Str (Store × Str) :=
  match command.action with
  | some a =>
    if a = "add_transaction".toList then
      let ty := if command.type = some ("income".toList) then EntryType.income
                else EntryType.expense
      let r := addEntry newId now dateKey
        { type := ty, amount := command.amount.getD 0,
          category := command.category.getD [], note := command.note } st
      Except.ok (r.2, "✅ **Transaction Successfully Added!** RM ".toList
        ++ FinancialMath.toFixed (command.amount.getD 0))
    else if a = "add_debt".toList then
      let r := addDebt newId now
        { person := command.person.getD [], amount := command.amount.getD 0,
          note := command.note } st
      Except.ok (r.2, "✅ **Receivable Successfully Added!** ".toList
        ++ command.person.getD [] ++ " owes you RM ".toList
        ++ FinancialMath.toFixed (command.amount.getD 0))
    else if a = "add_borrow".toList then
      let r := addBorrow newId now
        { person := command.person.getD [], amount := command.amount.getD 0,
          note := command.note, dueDate := command.dueDate } st
      Except.ok (r.2, "✅ **Payable Successfully Added!** You owe ".toList
        ++ command.person.getD [] ++ " RM ".toList
        ++ FinancialMath.toFixed (command.amount.getD 0))
    else Except.error ("Unknown action: ".toList ++ a)
  | none => Except.error ("Unknown action: undefined".toList)

/-- C5: mark_debt_paid is one of the nine recognized actions and its
command validates successfully, yet the executor's switch has no case for
it and throws "Unknown action: mark_debt_paid" — an execution error for a
recognized, validated action — while a validated add_debt command of the
same shape dispatches successfully.  (The AdvisorChat.tsx switch only
implements add_transaction, add_debt and add_borrow, although the
advisor system prompt advertises all nine actions and the parser
validates all nine.) -/
theorem executor_rejects_recognized_action :
    ("mark_debt_paid".toList ∈ VALID_ACTIONS)
    ∧ ((validateCommand vdT cmdMark).success = true)
    ∧ (errMsgE (executeCommand ("id1".toList) ("t0".toList) ("2024-01-02".toList) cmdMark
          emptyStore)
        = some ("Unknown action: ".toList ++ "mark_debt_paid".toList))
    ∧ (isOkE (executeCommand ("id1".toList) ("t0".toList) ("2024-01-02".toList) cA emptyStore)
        = true) := by
  with_unfolding_all decide
